import Mathlib

/-!
Verification of the MAILabs poetic-feedback browser application.

The development shallowly embeds the two JavaScript source files of the
repository:

* `src/phrase_selector.js` — the `PhraseSelector` class: speed
  categorisation, candidate-bucket accumulation, weighted-random
  selection with an anti-repetition history;
* `src/app.js` — the face movement tracker (`matchFaceToPrevious`,
  `calculateMovementSpeed`, `updateMovementTracking`, `getAverageSpeed`)
  and the playback sequencer (`playPhraseAudio`, `triggerNextMessage`,
  `fetchPOFPhrases`, `stopCamera`, and the decision point inside
  `detectFaces`).

JavaScript numbers are modelled as real numbers (`ℝ`); frame counters
and timestamps, which only ever hold integers, as `ℤ`.  `Math.random()`
values are passed in as explicit parameters.  `Math.sqrt` is
`Real.sqrt`, which makes the geometric definitions noncomputable; all
concrete evaluations are carried out by `simp`/`norm_num` instead of
kernel reduction.
-/

namespace Poetic

/-! ### Phrase selector (`src/phrase_selector.js`) -/

/-- `getSpeedCategory(speed)` (phrase_selector.js lines 31-42):
`null`/`undefined` ↦ `"med"`, `< 300` ↦ `"lo"`, `≤ 1000` ↦ `"med"`,
otherwise `"hi"`. -/
noncomputable def getSpeedCategory (speed : Option ℝ) : String :=
  match speed with
  | none => "med"
  | some s => if s < 300 then "lo" else if s ≤ 1000 then "med" else "hi"

/-- The phrase catalog: a JS object mapping emotion label to an object
mapping speed category to an array of phrases.  A missing property is
`none`. -/
def Catalog : Type := String → Option (String → Option (List String))

/-- One bucket access `phrases[e] && phrases[e][c]` — contributes its
list when both properties exist, nothing otherwise. -/
def bucket (c : Catalog) (e cat : String) : List String :=
  match c e with
  | none => []
  | some eb =>
    match eb cat with
    | none => []
    | some l => l

/-- State of the `PhraseSelector` instance: the loaded catalog
(`this.phrases`, `none` until loaded), the recent-history list
(`this.recentPhrases`) and the `this.ready` flag.  `lastArgs` is pure
instrumentation (not part of the source state): it records the
arguments of the most recent `selectPhrase` call so that theorems can
speak about the values supplied to the selector. -/
structure SelectorState where
  phrases : Option Catalog
  recentPhrases : List String
  ready : Bool
  lastArgs : Option (String × Option ℝ)

/-- `maxRecentHistory` (phrase_selector.js line 8). -/
def maxRecentHistory : Nat := 5

/-- `getPhrasesForCombination(emotion, speedCategory)`
(phrase_selector.js lines 45-73): returns `[]` when not ready or no
catalog, otherwise the concatenation of the four buckets
(emotion, cat), (emotion, "all"), ("all", cat), ("all", "all"). -/
def getPhrasesForCombination (s : SelectorState) (emotion speedCategory : String) :
    List String :=
  match s.phrases with
  | none => []
  | some c =>
    if s.ready then
      bucket c emotion speedCategory ++ bucket c emotion "all" ++
        bucket c "all" speedCategory ++ bucket c "all" "all"
    else []

/-- JS `Array.prototype.indexOf`: index of the first occurrence, `-1`
when absent. -/
def jsIndexOf (l : List String) (x : String) : ℤ :=
  match l.findIdx? (fun a => a = x) with
  | some i => (i : ℤ)
  | none => -1

/-- The weight given to one candidate (phrase_selector.js lines 90-96):
`recentIndex >= 0 ? 1 / (recentIndex + 2) : 1`. -/
noncomputable def phraseWeight (recent : List String) (p : String) : ℝ :=
  let recentIndex := jsIndexOf recent p
  if 0 ≤ recentIndex then 1 / ((recentIndex : ℝ) + 2) else 1

/-- The selection loop (phrase_selector.js lines 106-112): walk the
weighted list subtracting each weight from the running random value,
returning the first candidate at which the remainder drops to `≤ 0`. -/
noncomputable def pickWeighted (random : ℝ) : List (String × ℝ) → Option String
  | [] => none
  | (p, w) :: rest =>
    if random - w ≤ 0 then some p else pickWeighted (random - w) rest

/-- History update after a successful selection (phrase_selector.js
lines 119-130): remove any prior occurrence, push to the front, drop
the last entry beyond `maxRecentHistory`. -/
def updateRecent (recent : List String) (p : String) : List String :=
  let existingIndex := jsIndexOf recent p
  let r := if 0 ≤ existingIndex then recent.eraseIdx existingIndex.toNat else recent
  let r := p :: r
  if maxRecentHistory < r.length then r.dropLast else r

/-- `selectPhrase(emotion, speed)` (phrase_selector.js lines 76-133).
`r1` and `r2` are the two potential `Math.random()` draws (main draw
and uniform fallback).  Returns the selected phrase (or `none`) paired
with the updated selector state.  A fallback index that would be out of
range (impossible while `0 ≤ r2 < 1`) is modelled as no selection. -/
noncomputable def selectPhrase (r1 r2 : ℝ) (emotion : String) (speed : Option ℝ)
    (s : SelectorState) : Option String × SelectorState :=
  let s := { s with lastArgs := some (emotion, speed) }
  if s.ready then
    let speedCategory := getSpeedCategory speed
    let availablePhrases := getPhrasesForCombination s emotion speedCategory
    if availablePhrases = [] then (none, s)
    else
      let weightedPhrases := availablePhrases.map
        (fun p => (p, phraseWeight s.recentPhrases p))
      let totalWeight := (weightedPhrases.map Prod.snd).sum
      let random := r1 * totalWeight
      let selected :=
        match pickWeighted random weightedPhrases with
        | some p => some p
        | none => availablePhrases.get? (⌊r2 * (availablePhrases.length : ℝ)⌋).toNat
      match selected with
      | some p => (some p, { s with recentPhrases := updateRecent s.recentPhrases p })
      | none => (none, s)
  else (none, s)

/-! ### Face tracker (`src/app.js`) -/

/-- `SPEED_WINDOW_SIZE` (app.js line 18). -/
def SPEED_WINDOW_SIZE : Nat := 5

/-- `MIN_FRAMES_FOR_SPEED` (app.js line 19). -/
def MIN_FRAMES_FOR_SPEED : Nat := 5

/-- `LOCAL_PHRASES_BEFORE_POF` (app.js line 41). -/
def LOCAL_PHRASES_BEFORE_POF : Nat := 3

/-- A face identity string `face_${frameCount}_${idx}_${Date.now()}`
(app.js line 267).  The string embeds the three decimal numbers
separated by underscores, so it is determined by, and determines, the
triple. -/
structure FaceId where
  frame : ℤ
  idx : ℕ
  clock : ℤ
deriving DecidableEq

/-- A detection bounding box. -/
structure Box where
  x : ℝ
  y : ℝ
  width : ℝ
  height : ℝ

/-- The box centroid `{x: box.x + box.width/2, y: box.y + box.height/2}`
computed in `matchFaceToPrevious` and `calculateMovementSpeed`. -/
noncomputable def center (b : Box) : ℝ × ℝ :=
  (b.x + b.width / 2, b.y + b.height / 2)

/-- `distance(p1, p2)` (app.js lines 184-186). -/
noncomputable def distance (p1 p2 : ℝ × ℝ) : ℝ :=
  Real.sqrt ((p2.1 - p1.1) ^ 2 + (p2.2 - p1.2) ^ 2)

/-- `cartesianToPolar(vx, vy)` (app.js lines 189-193): magnitude and
four-quadrant angle (`Math.atan2(vy, vx)` is the argument of the
complex number `vx + vy·i`). -/
noncomputable def cartesianToPolar (vx vy : ℝ) : ℝ × ℝ :=
  (Real.sqrt (vx * vx + vy * vy), Complex.arg ⟨vx, vy⟩)

/-- An element of the `previousDetections` snapshot (app.js lines
313-320): plain box coordinates plus the face id and timestamp stored
into the detection during the previous frame (absent on a detection
never processed). -/
structure PrevDet where
  x : ℝ
  y : ℝ
  width : ℝ
  height : ℝ
  faceId : Option FaceId
  timestamp : Option ℤ

/-- The box of a previous-frame detection. -/
def PrevDet.box (d : PrevDet) : Box := ⟨d.x, d.y, d.width, d.height⟩

/-- The `forEach` scan inside `matchFaceToPrevious` (app.js lines
205-216): `bestMatch` starts at `-1`, `minDistance` at `Infinity`
(modelled as `none`); an index is taken when
`dist < threshold && dist < minDistance`. -/
noncomputable def matchAux (cc : ℝ × ℝ) (threshold : ℝ) :
    List PrevDet → ℕ → ℤ → Option ℝ → ℤ
  | [], _, bestMatch, _ => bestMatch
  | pd :: rest, index, bestMatch, minDistance =>
    let dist := distance cc (center pd.box)
    match minDistance with
    | none =>
      if dist < threshold then
        matchAux cc threshold rest (index + 1) (index : ℤ) (some dist)
      else matchAux cc threshold rest (index + 1) bestMatch none
    | some m =>
      if dist < threshold ∧ dist < m then
        matchAux cc threshold rest (index + 1) (index : ℤ) (some dist)
      else matchAux cc threshold rest (index + 1) bestMatch (some m)

/-- `matchFaceToPrevious(currentBox, previousBoxes, threshold = 100)`
(app.js lines 196-219). -/
noncomputable def matchFaceToPrevious (currentBox : Box)
    (previousBoxes : List PrevDet) (threshold : ℝ := 100) : ℤ :=
  matchAux (center currentBox) threshold previousBoxes 0 (-1) none

/-- The velocity record returned by `calculateMovementSpeed`. -/
structure Movement where
  speed : ℝ
  angle : ℝ
  vx : ℝ
  vy : ℝ

/-- `calculateMovementSpeed(currentBox, previousBox, timeDelta)`
(app.js lines 222-248). -/
noncomputable def calculateMovementSpeed (currentBox : Box)
    (previousBox : Option Box) (timeDelta : ℤ) : Option Movement :=
  match previousBox with
  | none => none
  | some prevBox =>
    if timeDelta = 0 then none
    else
      let currentCenter := center currentBox
      let previousCenter := center prevBox
      let vx := (currentCenter.1 - previousCenter.1) / (timeDelta : ℝ)
      let vy := (currentCenter.2 - previousCenter.2) / (timeDelta : ℝ)
      let polar := cartesianToPolar vx vy
      some ⟨polar.1, polar.2, vx, vy⟩

/-- The per-identity record stored in `faceMovementData` (app.js lines
276-282).  `positions` is allocated but never written by the source. -/
structure FaceData where
  positions : List (ℝ × ℝ)
  speeds : List ℝ
  timestamps : List ℤ
  lastBox : Option Box
  lastTime : ℤ

/-- `faceMovementData`, a JS `Map` in insertion order. -/
abbrev TrackMap : Type := List (FaceId × FaceData)

/-- `Map.get`. -/
def mapGet (m : TrackMap) (k : FaceId) : Option FaceData :=
  match m.find? (fun kv => kv.1 = k) with
  | some kv => some kv.2
  | none => none

/-- `Map.has`. -/
def mapHas (m : TrackMap) (k : FaceId) : Bool :=
  (mapGet m k).isSome

/-- `Map.set`: update in place when the key exists, append otherwise. -/
def mapSet (m : TrackMap) (k : FaceId) (v : FaceData) : TrackMap :=
  if mapHas m k then m.map (fun kv => if kv.1 = k then (k, v) else kv)
  else m ++ [(k, v)]

/-- The tracker's mutable globals (app.js lines 15-17). -/
structure TrackerState where
  faceMovementData : TrackMap
  previousDetections : List PrevDet
  frameCount : ℤ

/-- The identity/`timeDelta` assignment for one detection (app.js lines
254-268): reuse the matched previous detection's id when it has one,
with `timeDelta = currentTime - (timestamp || currentTime - 1)`
(coerced to 1 when zero); otherwise mint
`face_${frameCount}_${idx}_${Date.now()}` with the default delta 1. -/
noncomputable def assignFaceId (box : Box) (previousDetections : List PrevDet)
    (frameCount currentTime : ℤ) (idx : ℕ) (now : ℤ) : FaceId × ℤ :=
  let matchIdx := matchFaceToPrevious box previousDetections
  match (if 0 ≤ matchIdx then previousDetections.get? matchIdx.toNat else none) with
  | some pd =>
    match pd.faceId with
    | some fid =>
      let ts :=
        match pd.timestamp with
        | some t => if t = 0 then currentTime - 1 else t
        | none => currentTime - 1
      let timeDelta := currentTime - ts
      (fid, if timeDelta = 0 then 1 else timeDelta)
    | none => (⟨frameCount, idx, now⟩, 1)
  | none => (⟨frameCount, idx, now⟩, 1)

/-- A detection annotated with its assigned identity and timestamp
(app.js lines 271-272). -/
structure AnnotDet where
  box : Box
  faceId : FaceId
  timestamp : ℤ

/-- The per-detection `forEach` body of `updateMovementTracking`
(app.js lines 253-310): assign an identity, create the movement record
if absent, append a speed sample when a previous box exists (trimming
the window to `SPEED_WINDOW_SIZE`), and record the new box and time. -/
noncomputable def processDetections (previousDetections : List PrevDet)
    (frameCount currentTime now : ℤ) :
    List Box → ℕ → TrackMap → List AnnotDet × TrackMap
  | [], _, m => ([], m)
  | box :: rest, idx, m =>
    let a := assignFaceId box previousDetections frameCount currentTime idx now
    let fid := a.1
    let timeDelta := a.2
    let m1 := if mapHas m fid then m
              else mapSet m fid ⟨[], [], [], none, currentTime⟩
    let movementData := (mapGet m1 fid).getD ⟨[], [], [], none, currentTime⟩
    let md1 :=
      match movementData.lastBox with
      | some _ =>
        if movementData.lastTime ≠ 0 then
          match calculateMovementSpeed box movementData.lastBox timeDelta with
          | some movement =>
            let speeds := movementData.speeds ++ [movement.speed]
            let timestamps := movementData.timestamps ++ [currentTime]
            if SPEED_WINDOW_SIZE < speeds.length then
              { movementData with speeds := speeds.drop 1, timestamps := timestamps.drop 1 }
            else { movementData with speeds := speeds, timestamps := timestamps }
          | none => movementData
        else movementData
      | none => movementData
    let md2 := { md1 with lastBox := some box, lastTime := currentTime }
    let m2 := mapSet m1 fid md2
    let r := processDetections previousDetections frameCount currentTime now rest (idx + 1) m2
    (⟨box, fid, currentTime⟩ :: r.1, r.2)

/-- The staleness sweep (app.js lines 322-332): delete every identity
absent from the current detections whose gap since `lastTime` strictly
exceeds 30 frames (`data.lastTime || 0` is the identity on integer
timestamps). -/
def sweepStale (m : TrackMap) (annotated : List AnnotDet) (frameCount : ℤ) :
    TrackMap :=
  m.filter (fun kv =>
    (annotated.any (fun d => d.faceId = kv.1)) ||
      !(decide (30 < frameCount - kv.2.lastTime)))

/-- `updateMovementTracking(detections, currentTime)` (app.js lines
251-333), also returning the annotated detections used afterwards by
`detectFaces`. -/
noncomputable def updateMovementTrackingFull (detections : List Box)
    (currentTime now : ℤ) (t : TrackerState) : TrackerState × List AnnotDet :=
  let pa := processDetections t.previousDetections t.frameCount currentTime now
    detections 0 t.faceMovementData
  let previous := pa.1.map (fun d =>
    (⟨d.box.x, d.box.y, d.box.width, d.box.height, some d.faceId, some d.timestamp⟩ : PrevDet))
  (⟨sweepStale pa.2 pa.1 t.frameCount, previous, t.frameCount⟩, pa.1)

/-- One frame of tracking as performed by `detectFaces` (app.js lines
622-623 and 698): increment `frameCount`, set `currentTime` to it, and
run `updateMovementTracking`. -/
noncomputable def trackerFrame (detections : List Box) (now : ℤ)
    (t : TrackerState) : TrackerState × List AnnotDet :=
  let fc := t.frameCount + 1
  updateMovementTrackingFull detections fc now
    { t with frameCount := fc }

/-- The record returned by `getAverageSpeed` (app.js lines 349-353). -/
structure SpeedData where
  avgSpeed : ℝ
  speedPerSecond : ℝ
  sampleCount : ℕ

/-- `getAverageSpeed(faceId)` (app.js lines 336-354): `null` until the
identity has `MIN_FRAMES_FOR_SPEED` samples; otherwise the mean of
absolute sample magnitudes, together with that mean multiplied by the
assumed frame rate 30. -/
noncomputable def getAverageSpeed (t : TrackerState) (faceId : FaceId) :
    Option SpeedData :=
  match mapGet t.faceMovementData faceId with
  | none => none
  | some movementData =>
    if movementData.speeds.length < MIN_FRAMES_FOR_SPEED then none
    else
      let speeds := movementData.speeds
      let avgSpeed := (speeds.map (fun s => |s|)).sum / (speeds.length : ℝ)
      some ⟨avgSpeed, avgSpeed * 30, speeds.length⟩

/-- The tracker globals at page load (app.js lines 15-17). -/
def initTracker : TrackerState := ⟨[], [], 0⟩

/-! ### Playback sequencer (`src/app.js`)

The sequencer's globals are gathered into one state record; the
event-driven callbacks (audio `onended`/`onerror`, the delayed
`triggerNextMessage` timeout, the POF fetch continuation) become
explicit transition functions applied when the corresponding external
event occurs. -/

/-- JS `String.prototype.trim()`: strip leading and trailing
whitespace.  (Defined structurally over the character list so that it
evaluates; Lean's own `String.trim` is well-founded-recursive and does
not reduce.) -/
def jsTrim (s : String) : String :=
  ⟨((s.data.dropWhile Char.isWhitespace).reverse.dropWhile
      Char.isWhitespace).reverse⟩

/-- The sequencer and session globals of app.js (lines 11-44) together
with the tracker and the phrase-selector instance.  `currentAudio`
holds the playing phrase and its `isVLM` flag.  `nextMessageTimeout`
records whether a delayed `triggerNextMessage` is pending.
`fetchCount` is pure instrumentation (not a source variable): it counts
the POF requests actually issued, so that theorems can state that no
second fetch is started while one is in flight. -/
structure AppState where
  isRunning : Bool
  currentAudio : Option (String × Bool)
  isWaitingForNextMessage : Bool
  nextMessageTimeout : Bool
  phraseCurrent : Option String
  phraseIsVLM : Bool
  localPhraseCount : Nat
  isInPOFMode : Bool
  pofPhrases : List String
  currentPOFPhraseIndex : Nat
  pofRequestInProgress : Bool
  lastFaceId : Option FaceId
  selector : SelectorState
  tracker : TrackerState
  fetchCount : Nat

/-- The synchronous effect of `playPhraseAudio(phrase, isVLM)` with a
non-null phrase (app.js lines 406-495): stop current audio, cancel the
pending timeout, update the display, clear the waiting flag and start
the new audio.  Completion/failure of the started audio are the
separate events `audioEnded`/`audioError`. -/
def playPhraseAudioCore (phrase : String) (isVLM : Bool) (s : AppState) : AppState :=
  { s with
    nextMessageTimeout := false
    phraseCurrent := some phrase
    phraseIsVLM := isVLM
    isWaitingForNextMessage := false
    currentAudio := some (phrase, isVLM) }

/-- `triggerNextMessage()` (app.js lines 498-528). -/
def triggerNextMessage (s : AppState) : AppState :=
  if s.isWaitingForNextMessage then s
  else
    let s := { s with isWaitingForNextMessage := true }
    if s.isInPOFMode ∧ s.pofPhrases ≠ [] then
      let s := { s with currentPOFPhraseIndex := s.currentPOFPhraseIndex + 1 }
      if s.currentPOFPhraseIndex < s.pofPhrases.length then
        match s.pofPhrases.get? s.currentPOFPhraseIndex with
        | some p => playPhraseAudioCore p true { s with isWaitingForNextMessage := false }
        | none => s
      else
        { s with
          isInPOFMode := false
          pofPhrases := []
          currentPOFPhraseIndex := 0
          localPhraseCount := 0
          isWaitingForNextMessage := false }
    else { s with isWaitingForNextMessage := false }

/-- The `onended` callback of the current audio (app.js lines 447-459):
clear the audio, then schedule the delayed `triggerNextMessage`.  A
stale event (its audio no longer current) is a no-op. -/
def audioEnded (s : AppState) : AppState :=
  match s.currentAudio with
  | some _ =>
    { s with
      currentAudio := none
      isWaitingForNextMessage := false
      nextMessageTimeout := true }
  | none => s

/-- The pending `setTimeout` callback firing after `MESSAGE_DELAY_MS`
(app.js lines 455-457): run `triggerNextMessage`. -/
def timeoutFire (s : AppState) : AppState :=
  if s.nextMessageTimeout then triggerNextMessage { s with nextMessageTimeout := false }
  else s

/-- The `onerror`/play-rejection callback (app.js lines 461-494): drop
the audio if still current, clear the displayed phrase, and advance
immediately. -/
def audioError (s : AppState) : AppState :=
  let s :=
    match s.currentAudio with
    | some _ => { s with currentAudio := none }
    | none => s
  triggerNextMessage { s with phraseCurrent := none, isWaitingForNextMessage := false }

/-- `selectAndPlayLocalPhrase(dominantEmotionX, speedPixelsPerFrame)`
(app.js lines 381-390). -/
noncomputable def selectAndPlayLocalPhrase (r1 r2 : ℝ) (dominantEmotionX : String)
    (speedPixelsPerFrame : Option ℝ) (s : AppState) : AppState :=
  let res := selectPhrase r1 r2 dominantEmotionX speedPixelsPerFrame s.selector
  let s := { s with selector := res.2 }
  match res.1 with
  | some newPhrase => playPhraseAudioCore newPhrase false s
  | none => triggerNextMessage s

/-- The synchronous prefix of `fetchPOFPhrases()` (app.js lines
559-568): do nothing when a request is already in flight, otherwise
mark the request in progress (and, as instrumentation, count it). -/
def fetchPOFStart (s : AppState) : AppState :=
  if s.pofRequestInProgress then s
  else { s with pofRequestInProgress := true, fetchCount := s.fetchCount + 1 }

/-- The continuation of `fetchPOFPhrases()` once the network result is
known (app.js lines 570-612).  `response = some arr` models a 2xx
response whose body parsed as a JSON array `arr`; `none` models a
non-2xx response, a thrown error, or a non-array payload — all of which
land in the `catch` block, as does an empty array.  The `finally`
clause clears `pofRequestInProgress` on every path. -/
def fetchPOFContinue (response : Option (List String)) (s : AppState) : AppState :=
  let s1 :=
    match response with
    | some arr =>
      if arr ≠ [] then
        let cleaned := (arr.map jsTrim).filter (fun p : String => 0 < p.length)
        let s := { s with
          pofPhrases := cleaned
          currentPOFPhraseIndex := 0
          isInPOFMode := true }
        match cleaned with
        | p :: _ => playPhraseAudioCore p true { s with isWaitingForNextMessage := false }
        | [] => { s with isInPOFMode := false, isWaitingForNextMessage := false }
      else
        { s with
          isInPOFMode := false
          pofPhrases := []
          currentPOFPhraseIndex := 0
          isWaitingForNextMessage := false }
    | none =>
      { s with
        isInPOFMode := false
        pofPhrases := []
        currentPOFPhraseIndex := 0
        isWaitingForNextMessage := false }
  { s1 with pofRequestInProgress := false }

/-- The sequencer decision point inside `detectFaces` (app.js lines
737-760), reached when a primary face is present: when no audio plays,
no advance is pending and the selector is ready, either increment the
local counter and play a local phrase, or — beyond
`LOCAL_PHRASES_BEFORE_POF` local phrases with no fetch in flight —
reset the counter and start the remote fetch. -/
noncomputable def decisionPoint (r1 r2 : ℝ) (dominantEmotionX : String)
    (speedPixelsPerFrame : Option ℝ) (s : AppState) : AppState :=
  if s.currentAudio = none ∧ s.isWaitingForNextMessage = false ∧ s.selector.ready then
    if s.isInPOFMode = false then
      let c := s.localPhraseCount + 1
      if LOCAL_PHRASES_BEFORE_POF < c ∧ s.pofRequestInProgress = false then
        fetchPOFStart { s with localPhraseCount := 0, isWaitingForNextMessage := true }
      else
        selectAndPlayLocalPhrase r1 r2 dominantEmotionX speedPixelsPerFrame
          { s with localPhraseCount := c }
    else s
  else s

/-- The largest-face scan (app.js lines 701-709): strictly larger width
wins, starting from width 0, so ties keep the earlier detection. -/
noncomputable def largestFace (detections : List AnnotDet) : Option AnnotDet :=
  detections.foldl
    (fun acc d =>
      match acc with
      | none => if 0 < d.box.width then some d else none
      | some b => if b.box.width < d.box.width then some d else acc)
    none

/-- The speed argument handed to the selector (app.js lines 733-735):
`speedData ? speedData.avgSpeed : null` — the per-frame average, not
`speedPerSecond`. -/
noncomputable def decisionSpeedArg (t : TrackerState) (faceId : FaceId) : Option ℝ :=
  match getAverageSpeed t faceId with
  | some speedData => some speedData.avgSpeed
  | none => none

/-- One `detectFaces` tick (app.js lines 616-765, drawing omitted):
update tracking, find the primary (largest) face, record `lastFaceId`
(the new-person reset call on line 720 is commented out in the source)
and run the decision point with the dominant non-neutral emotion —
supplied here as an input, since it is a pure function of the
detector-provided expression scores — and the per-frame speed of the
primary face. -/
noncomputable def frameStep (detections : List Box) (now : ℤ)
    (dominantEmotionX : String) (r1 r2 : ℝ) (s : AppState) : AppState :=
  if s.isRunning then
    let tf := trackerFrame detections now s.tracker
    let s := { s with tracker := tf.1 }
    match largestFace tf.2 with
    | some lf =>
      let s := { s with lastFaceId := some lf.faceId }
      decisionPoint r1 r2 dominantEmotionX (decisionSpeedArg s.tracker lf.faceId) s
    | none => s
  else s

/-- `stopCamera()` (app.js lines 126-181): synchronously stop audio,
cancel the pending timeout, clear the tracking map and every sequencer
flag, counter and batch variable, and reset the frame state.  The
selector's history and the instrumentation counter are not touched by
the source. -/
def stopCamera (s : AppState) : AppState :=
  { s with
    tracker := ⟨[], [], 0⟩
    currentAudio := none
    nextMessageTimeout := false
    phraseCurrent := none
    phraseIsVLM := false
    isWaitingForNextMessage := false
    localPhraseCount := 0
    isInPOFMode := false
    pofPhrases := []
    currentPOFPhraseIndex := 0
    pofRequestInProgress := false
    lastFaceId := none
    isRunning := false }

/-- The application state right after a successful `startCamera` with a
loaded phrase catalog: every global at its declared initial value,
`isRunning = true`, selector ready. -/
def startedAppState (catalog : Catalog) : AppState :=
  { isRunning := true
    currentAudio := none
    isWaitingForNextMessage := false
    nextMessageTimeout := false
    phraseCurrent := none
    phraseIsVLM := false
    localPhraseCount := 0
    isInPOFMode := false
    pofPhrases := []
    currentPOFPhraseIndex := 0
    pofRequestInProgress := false
    lastFaceId := none
    selector := ⟨some catalog, [], true, none⟩
    tracker := initTracker
    fetchCount := 0 }

/-- A one-phrase catalog: the global "all"/"all" bucket holds the
single phrase `"P"`. -/
def soloCatalog : Catalog := fun e =>
  if e = "all" then some (fun c => if c = "all" then some ["P"] else none) else none

/-! ### Concrete scenario states

`c3Run…`: a scripted sequencer run from the reset state: a decision
point per played phrase, with `audioEnded` followed by the delayed
`timeoutFire` between phrases, a remote fetch answered with a two-item
batch, and the batch played to exhaustion.

`c1A…`: six `detectFaces` ticks with a single face moving 10 units
right per frame, the audio of the first phrase ending after the fifth
tick. -/

/-- One decision point of the scripted run (random draws 0, emotion
`"x"`, no speed sample). -/
noncomputable def c3Decision (s : AppState) : AppState := decisionPoint 0 0 "x" none s

/-- Audio completion followed by the delayed `triggerNextMessage`. -/
def c3Advance (s : AppState) : AppState := timeoutFire (audioEnded s)

noncomputable def c3Run1 : AppState := c3Decision (startedAppState soloCatalog)

noncomputable def c3Run2 : AppState := c3Decision (c3Advance c3Run1)

noncomputable def c3Run3 : AppState := c3Decision (c3Advance c3Run2)

noncomputable def c3Run4 : AppState := c3Decision (c3Advance c3Run3)

noncomputable def c3Run5 : AppState := fetchPOFContinue (some ["A", "B"]) c3Run4

noncomputable def c3Run6 : AppState := c3Advance c3Run5

noncomputable def c3Run7 : AppState := c3Advance c3Run6

/-- One `detectFaces` tick of the moving-face scenario: a single
50×50 box at abscissa `x`, emotion `"x"`, random draws 0. -/
noncomputable def c1Frame (x : ℝ) (now : ℤ) (s : AppState) : AppState :=
  frameStep [⟨x, 0, 50, 50⟩] now "x" 0 0 s

noncomputable def c1A1 : AppState := c1Frame 0 100 (startedAppState soloCatalog)

noncomputable def c1A2 : AppState := c1Frame 10 101 c1A1

noncomputable def c1A3 : AppState := c1Frame 20 102 c1A2

noncomputable def c1A4 : AppState := c1Frame 30 103 c1A3

noncomputable def c1A5 : AppState := c1Frame 40 104 c1A4

noncomputable def c1A6 : AppState := c1Frame 50 105 (timeoutFire (audioEnded c1A5))

/-- The identity minted for the scenario face on the first tick. -/
def c1Fid : FaceId := ⟨1, 0, 100⟩

/-- The tracker state after the six ticks of the moving-face scenario:
five speed samples of 10 units per frame. -/
def c1Tracker6 : TrackerState :=
  ⟨[(c1Fid, ⟨[], [10, 10, 10, 10, 10], [2, 3, 4, 5, 6],
    some ⟨50, 0, 50, 50⟩, 6⟩)],
    [⟨50, 0, 50, 50, some c1Fid, some 6⟩], 6⟩

/-- Iterated tracking frames (the tracker component of successive
`detectFaces` ticks), for stating run-level tracker invariants. -/
noncomputable def runSteps : List (List Box × ℤ) → TrackerState → TrackerState
  | [], t => t
  | (dets, now) :: rest, t => runSteps rest (trackerFrame dets now t).1

/-- A previous-frame detection qualifies for a current centroid when
its centroid lies strictly within the threshold and strictly improves
on the running minimum (`none` is the initial `Infinity`). -/
def qual (cc : ℝ × ℝ) (threshold : ℝ) (minD : Option ℝ) (pd : PrevDet) : Prop :=
  distance cc (center pd.box) < threshold ∧
    ∀ m, minD = some m → distance cc (center pd.box) < m

/-- Every identity stored anywhere in a tracker state was minted at or
before the current frame (its `frame` component is bounded by
`frameCount`). -/
def trackerIdBound (t : TrackerState) : Prop :=
  (∀ kv ∈ t.faceMovementData, kv.1.frame ≤ t.frameCount) ∧
  (∀ pd ∈ t.previousDetections, ∀ fid, pd.faceId = some fid →
    fid.frame ≤ t.frameCount)

/-- A tracker state with one identity holding five speed samples. -/
def c7State : TrackerState :=
  ⟨[(⟨1, 0, 0⟩, ⟨[], [1, 2, 3, 4, 5], [1, 2, 3, 4, 5], none, 5⟩)], [], 5⟩

/-- A freshly started session whose first POF request has just been
issued. -/
def c4State : AppState := fetchPOFStart (startedAppState soloCatalog)

/-- The state after `stopCamera` runs while that POF request is still
in flight. -/
def c2Stopped : AppState := stopCamera c4State

/-! ## Theorems -/

theorem getSpeedCategory_some (s : ℝ) :
    getSpeedCategory (some s) =
      if s < 300 then "lo" else if s ≤ 1000 then "med" else "hi" := rfl

/-- C8: the speed-category mapping satisfies the five boundary samples
(299 ↦ lo, 300 ↦ med, 1000 ↦ med, 1001 ↦ hi, unknown ↦ med) and, in
general, speeds below 300 map to "lo", speeds from 300 up to and
including 1000 map to "med", and speeds above 1000 map to "hi". -/
theorem getSpeedCategory_boundaries :
    getSpeedCategory (some 299) = "lo" ∧
    getSpeedCategory (some 300) = "med" ∧
    getSpeedCategory (some 1000) = "med" ∧
    getSpeedCategory (some 1001) = "hi" ∧
    getSpeedCategory none = "med" ∧
    (∀ s : ℝ, s < 300 → getSpeedCategory (some s) = "lo") ∧
    (∀ s : ℝ, 300 ≤ s → s ≤ 1000 → getSpeedCategory (some s) = "med") ∧
    (∀ s : ℝ, 1000 < s → getSpeedCategory (some s) = "hi") := by
  refine ⟨?_, ?_, ?_, ?_, rfl, ?_, ?_, ?_⟩
  · rw [getSpeedCategory_some, if_pos (by norm_num)]
  · rw [getSpeedCategory_some, if_neg (by norm_num), if_pos (by norm_num)]
  · rw [getSpeedCategory_some, if_neg (by norm_num), if_pos (by norm_num)]
  · rw [getSpeedCategory_some, if_neg (by norm_num), if_neg (by norm_num)]
  · intro s h
    rw [getSpeedCategory_some, if_pos h]
  · intro s h1 h2
    rw [getSpeedCategory_some, if_neg (not_lt.mpr h1), if_pos h2]
  · intro s h
    have h1 : ¬ s < 300 := not_lt.mpr (by linarith)
    rw [getSpeedCategory_some, if_neg h1, if_neg (not_le.mpr h)]

theorem getSpeedCategory_boundaries_witness :
    getSpeedCategory (some 10) = "lo" ∧ getSpeedCategory (some 500) = "med" ∧
    getSpeedCategory (some 2000) = "hi" :=
  ⟨getSpeedCategory_boundaries.2.2.2.2.2.1 10 (by norm_num),
   getSpeedCategory_boundaries.2.2.2.2.2.2.1 500 (by norm_num) (by norm_num),
   getSpeedCategory_boundaries.2.2.2.2.2.2.2 2000 (by norm_num)⟩

/-- C7: a tracked identity's average speed query returns `null` while
its sample window holds fewer than `MIN_FRAMES_FOR_SPEED` (5) samples
(in particular when the identity is untracked), and with at least 5
samples it returns the non-negative mean of the absolute magnitudes in
the window. -/
theorem getAverageSpeed_unknown_then_nonneg (t : TrackerState) (fid : FaceId) :
    ((∀ md, mapGet t.faceMovementData fid = some md →
        md.speeds.length < MIN_FRAMES_FOR_SPEED) →
      getAverageSpeed t fid = none) ∧
    (∀ md, mapGet t.faceMovementData fid = some md →
      MIN_FRAMES_FOR_SPEED ≤ md.speeds.length →
      ∃ sd, getAverageSpeed t fid = some sd ∧ 0 ≤ sd.avgSpeed ∧
        sd.avgSpeed = (md.speeds.map (fun x => |x|)).sum / (md.speeds.length : ℝ) ∧
        sd.sampleCount = md.speeds.length) := by
  constructor
  · intro h
    rcases hm : mapGet t.faceMovementData fid with _ | md
    · simp [getAverageSpeed, hm]
    · simp [getAverageSpeed, hm, h md hm]
  · intro md hm hlen
    have hsum : 0 ≤ (md.speeds.map (fun x => |x|)).sum := by
      apply List.sum_nonneg
      intro x hx
      rcases List.mem_map.1 hx with ⟨y, _, rfl⟩
      exact abs_nonneg y
    refine ⟨⟨(md.speeds.map (fun x => |x|)).sum / (md.speeds.length : ℝ),
      (md.speeds.map (fun x => |x|)).sum / (md.speeds.length : ℝ) * 30,
      md.speeds.length⟩, ?_, ?_, rfl, rfl⟩
    · simp [getAverageSpeed, hm, not_lt.mpr hlen]
    · exact div_nonneg hsum (Nat.cast_nonneg _)

theorem getAverageSpeed_unknown_then_nonneg_witness :
    ∃ sd, getAverageSpeed c7State ⟨1, 0, 0⟩ = some sd ∧ 0 ≤ sd.avgSpeed := by
  obtain ⟨sd, h1, h2, -, -⟩ :=
    (getAverageSpeed_unknown_then_nonneg c7State ⟨1, 0, 0⟩).2
      ⟨[], [1, 2, 3, 4, 5], [1, 2, 3, 4, 5], none, 5⟩ rfl (by decide)
  exact ⟨sd, h1, h2⟩

theorem phraseWeight_of_findIdx (recent : List String) (p : String) (i : ℕ)
    (h : recent.findIdx? (fun a => a = p) = some i) :
    phraseWeight recent p = 1 / ((i : ℝ) + 2) := by
  simp only [phraseWeight, jsIndexOf, h]
  rw [if_pos (Int.natCast_nonneg i)]
  push_cast
  ring

theorem phraseWeight_of_not_found (recent : List String) (p : String)
    (h : recent.findIdx? (fun a => a = p) = none) :
    phraseWeight recent p = 1 := by
  simp only [phraseWeight, jsIndexOf, h]
  rw [if_neg (by norm_num)]

theorem phraseWeight_pos (recent : List String) (p : String) :
    0 < phraseWeight recent p := by
  simp only [phraseWeight]
  split
  · next h =>
    have hx : (0 : ℝ) ≤ ((jsIndexOf recent p : ℤ) : ℝ) := by exact_mod_cast h
    have h2 : (0 : ℝ) < ((jsIndexOf recent p : ℤ) : ℝ) + 2 := by linarith
    exact one_div_pos.mpr h2
  · norm_num

theorem pickWeighted_mem (l : List (String × ℝ)) (r : ℝ) (p : String)
    (h : pickWeighted r l = some p) : p ∈ l.map Prod.fst := by
  induction l generalizing r with
  | nil => simp [pickWeighted] at h
  | cons hd tl ih =>
    rcases hd with ⟨q, w⟩
    simp only [pickWeighted] at h
    split at h
    · cases h
      simp
    · simp only [List.map_cons]
      exact List.mem_cons_of_mem _ (ih _ h)

theorem pickWeighted_isSome : ∀ (l : List (String × ℝ)) (r : ℝ),
    (∀ x ∈ l, 0 < x.2) → r < (l.map Prod.snd).sum → l ≠ [] →
    ∃ p, pickWeighted r l = some p := by
  intro l
  induction l with
  | nil => intro r _ _ hl; exact absurd rfl hl
  | cons hd tl ih =>
    intro r hw hr _
    rcases hd with ⟨q, w⟩
    simp only [pickWeighted]
    by_cases hcond : r - w ≤ 0
    · rw [if_pos hcond]
      exact ⟨q, rfl⟩
    · rw [if_neg hcond]
      push_neg at hcond
      rcases eq_or_ne tl [] with rfl | htl
      · exfalso
        simp only [List.map_cons, List.map_nil, List.sum_cons, List.sum_nil,
          add_zero] at hr
        linarith
      · have hsum : (List.map Prod.snd ((q, w) :: tl)).sum =
            w + (tl.map Prod.snd).sum := by simp
        rw [hsum] at hr
        exact ih (r - w) (fun x hx => hw x (List.mem_cons_of_mem _ hx))
          (by linarith) htl

theorem updateRecent_head (recent : List String) (p : String) :
    ∃ t, updateRecent recent p = p :: t := by
  simp only [updateRecent]
  set r := if 0 ≤ jsIndexOf recent p then recent.eraseIdx (jsIndexOf recent p).toNat
    else recent with hr
  by_cases h5 : maxRecentHistory < (p :: r).length
  · rw [if_pos h5]
    rcases r with _ | ⟨b, l⟩
    · exfalso
      simp [maxRecentHistory] at h5
    · exact ⟨(b :: l).dropLast, by rw [List.dropLast_cons₂]⟩
  · rw [if_neg h5]
    exact ⟨r, rfl⟩

theorem selectPhrase_some_recent (r1 r2 : ℝ) (em : String) (sp : Option ℝ)
    (s : SelectorState) (p : String) (s' : SelectorState)
    (h : selectPhrase r1 r2 em sp s = (some p, s')) :
    s'.recentPhrases = updateRecent s.recentPhrases p := by
  simp only [selectPhrase] at h
  split at h
  · split at h
    · exact absurd (congrArg Prod.fst h) (by simp)
    · split at h
      · next q hq =>
        rw [Prod.mk.injEq] at h
        rcases h with ⟨h1, h2⟩
        cases h1
        rw [← h2]
      · exact absurd (congrArg Prod.fst h) (by simp)
  · exact absurd (congrArg Prod.fst h) (by simp)

theorem phraseWeight_cons_self (p : String) (t : List String) :
    phraseWeight (p :: t) p = 1 / 2 := by
  have h : (p :: t).findIdx? (fun a => a = p) = some 0 := by
    simp [List.findIdx?_cons]
  rw [phraseWeight_of_findIdx _ _ _ h]
  norm_num

theorem getSpeedCategory_ne_all (sp : Option ℝ) : getSpeedCategory sp ≠ "all" := by
  rcases sp with _ | s
  · simp [getSpeedCategory]
  · rw [getSpeedCategory_some]
    split_ifs <;> simp

theorem SelectorState_with_recent (s : SelectorState) (la : Option (String × Option ℝ)) :
    ({ s with lastArgs := la } : SelectorState).recentPhrases = s.recentPhrases := rfl

theorem SelectorState_with_ready (s : SelectorState) (la : Option (String × Option ℝ)) :
    ({ s with lastArgs := la } : SelectorState).ready = s.ready := rfl

theorem getPhrasesForCombination_lastArgs (s : SelectorState)
    (la : Option (String × Option ℝ)) (em cat : String) :
    getPhrasesForCombination { s with lastArgs := la } em cat =
      getPhrasesForCombination s em cat := rfl

theorem selectPhrase_solo (sp : Option ℝ) (recent : List String)
    (la : Option (String × Option ℝ)) (hrec : recent = [] ∨ recent = ["P"]) :
    selectPhrase 0 0 "x" sp ⟨some soloCatalog, recent, true, la⟩ =
      (some "P", ⟨some soloCatalog, ["P"], true, some ("x", sp)⟩) := by
  have hcat := getSpeedCategory_ne_all sp
  rcases hrec with rfl | rfl
  · have hav : getPhrasesForCombination ⟨some soloCatalog, [], true, some ("x", sp)⟩
        "x" (getSpeedCategory sp) = ["P"] := by
      simp [getPhrasesForCombination, bucket, soloCatalog, hcat]
    have hw : phraseWeight ([] : List String) "P" = 1 :=
      phraseWeight_of_not_found _ _ (by simp)
    simp only [selectPhrase, hav, hw]
    norm_num [pickWeighted, updateRecent, jsIndexOf, maxRecentHistory, hw]
  · have hav : getPhrasesForCombination ⟨some soloCatalog, ["P"], true, some ("x", sp)⟩
        "x" (getSpeedCategory sp) = ["P"] := by
      simp [getPhrasesForCombination, bucket, soloCatalog, hcat]
    have hw : phraseWeight ["P"] "P" = 1 / 2 := phraseWeight_cons_self "P" []
    simp only [selectPhrase, hav, hw]
    norm_num [pickWeighted, updateRecent, jsIndexOf, maxRecentHistory, hw]

/-- C10: in every draw performed by `selectPhrase`, a candidate sitting
at position `i` of the recent-history list receives weight `1/(i+2)`
and a candidate outside the history receives weight 1; consequently a
phrase just selected (and moved to history position 0) has weight
exactly `1/2` in the very next draw. -/
theorem selection_weight_halving :
    (∀ (recent : List String) (p : String) (i : ℕ),
      recent.findIdx? (fun a => a = p) = some i →
      phraseWeight recent p = 1 / ((i : ℝ) + 2)) ∧
    (∀ (recent : List String) (p : String),
      recent.findIdx? (fun a => a = p) = none → phraseWeight recent p = 1) ∧
    (∀ (r1 r2 : ℝ) (em : String) (sp : Option ℝ) (s : SelectorState)
      (p : String) (s' : SelectorState),
      selectPhrase r1 r2 em sp s = (some p, s') →
      phraseWeight s'.recentPhrases p = 1 / 2) := by
  refine ⟨phraseWeight_of_findIdx, phraseWeight_of_not_found, ?_⟩
  intro r1 r2 em sp s p s' h
  have hrec := selectPhrase_some_recent r1 r2 em sp s p s' h
  obtain ⟨t, ht⟩ := updateRecent_head s.recentPhrases p
  rw [hrec, ht]
  exact phraseWeight_cons_self p t

theorem selection_weight_halving_witness :
    phraseWeight
      (selectPhrase 0 0 "x" none ⟨some soloCatalog, [], true, none⟩).2.recentPhrases
      "P" = 1 / 2 := by
  apply selection_weight_halving.2.2 0 0 "x" none ⟨some soloCatalog, [], true, none⟩ "P"
  rw [selectPhrase_solo none [] none (Or.inl rfl)]

/-- C9: `selectPhrase` returns nothing exactly when the catalog is not
ready or the four-bucket candidate list is empty, and any phrase it
returns belongs to that candidate list (`r1` is a `Math.random()`
value, so `0 ≤ r1 < 1`). -/
theorem selectPhrase_none_iff_mem (r1 r2 : ℝ) (em : String) (sp : Option ℝ)
    (s : SelectorState) (h0 : 0 ≤ r1) (h1 : r1 < 1) :
    ((selectPhrase r1 r2 em sp s).1 = none ↔
      s.ready = false ∨ getPhrasesForCombination s em (getSpeedCategory sp) = []) ∧
    (∀ p, (selectPhrase r1 r2 em sp s).1 = some p →
      p ∈ getPhrasesForCombination s em (getSpeedCategory sp)) := by
  by_cases hready : s.ready = true
  · by_cases hav : getPhrasesForCombination s em (getSpeedCategory sp) = []
    · have hnone : (selectPhrase r1 r2 em sp s).1 = none := by
        simp only [selectPhrase, getPhrasesForCombination_lastArgs,
          SelectorState_with_ready]
        rw [if_pos hready, if_pos hav]
      refine ⟨by simp [hnone, hav], ?_⟩
      intro p hp
      rw [hnone] at hp
      cases hp
    · set A := getPhrasesForCombination s em (getSpeedCategory sp) with hA
      set W := A.map (fun p => (p, phraseWeight s.recentPhrases p)) with hW
      have hwpos : ∀ x ∈ W, 0 < x.2 := by
        intro x hx
        rcases List.mem_map.1 hx with ⟨q, _, rfl⟩
        exact phraseWeight_pos _ _
      have hWne : W ≠ [] := by
        simp only [hW, ne_eq, List.map_eq_nil]
        exact hav
      have htot : 0 < (W.map Prod.snd).sum := by
        apply List.sum_pos
        · intro x hx
          rcases List.mem_map.1 hx with ⟨q, hq, rfl⟩
          exact hwpos q hq
        · simp only [ne_eq, List.map_eq_nil]
          exact hWne
      have hrt : r1 * (W.map Prod.snd).sum < (W.map Prod.snd).sum := by
        calc r1 * (W.map Prod.snd).sum < 1 * (W.map Prod.snd).sum :=
              mul_lt_mul_of_pos_right h1 htot
          _ = (W.map Prod.snd).sum := one_mul _
      obtain ⟨p, hp⟩ := pickWeighted_isSome W (r1 * (W.map Prod.snd).sum)
        hwpos hrt hWne
      have hsel : (selectPhrase r1 r2 em sp s).1 = some p := by
        simp only [selectPhrase, getPhrasesForCombination_lastArgs,
          SelectorState_with_ready, SelectorState_with_recent]
        rw [if_pos hready, if_neg hav]
        rw [← hA, ← hW, hp]
      have hmem : p ∈ A := by
        have := pickWeighted_mem W _ p hp
        simpa [hW, List.map_map, Function.comp] using this
      constructor
      · simp [hsel, hready, hav]
      · intro q hq
        rw [hsel] at hq
        cases hq
        exact hmem
  · have hnone : (selectPhrase r1 r2 em sp s).1 = none := by
      simp only [selectPhrase, SelectorState_with_ready]
      rw [if_neg hready]
    have hfalse : s.ready = false := by
      cases hb : s.ready
      · rfl
      · exact absurd hb hready
    refine ⟨by simp [hnone, hfalse], ?_⟩
    intro p hp
    rw [hnone] at hp
    cases hp

theorem selectPhrase_none_iff_mem_witness :
    "P" ∈ getPhrasesForCombination ⟨some soloCatalog, [], true, none⟩ "x"
      (getSpeedCategory none) := by
  apply (selectPhrase_none_iff_mem 0 0 "x" none ⟨some soloCatalog, [], true, none⟩
    (by norm_num) (by norm_num)).2 "P"
  rw [selectPhrase_solo none [] none (Or.inl rfl)]

theorem fetchCount_playCore (p : String) (isVLM : Bool) (s : AppState) :
    (playPhraseAudioCore p isVLM s).fetchCount = s.fetchCount := rfl

theorem fetchCount_trigger (s : AppState) :
    (triggerNextMessage s).fetchCount = s.fetchCount := by
  unfold triggerNextMessage
  split
  · rfl
  · dsimp only
    split
    · split
      · split <;> rfl
      · rfl
    · rfl

theorem fetchCount_selectAndPlay (r1 r2 : ℝ) (em : String) (sp : Option ℝ)
    (s : AppState) :
    (selectAndPlayLocalPhrase r1 r2 em sp s).fetchCount = s.fetchCount := by
  unfold selectAndPlayLocalPhrase
  dsimp only
  split
  · rfl
  · rw [fetchCount_trigger]

/-- When the decision-point guard passes, POF mode is off, and the
incremented counter does not trip the fetch condition, the decision
point is exactly the local-selection branch. -/
theorem decisionPoint_local (r1 r2 : ℝ) (em : String) (sp : Option ℝ)
    (s : AppState) (h1 : s.currentAudio = none)
    (h2 : s.isWaitingForNextMessage = false) (h3 : s.selector.ready = true)
    (h4 : s.isInPOFMode = false)
    (h5 : ¬(LOCAL_PHRASES_BEFORE_POF < s.localPhraseCount + 1 ∧
      s.pofRequestInProgress = false)) :
    decisionPoint r1 r2 em sp s =
      selectAndPlayLocalPhrase r1 r2 em sp
        { s with localPhraseCount := s.localPhraseCount + 1 } := by
  unfold decisionPoint
  rw [if_pos ⟨h1, h2, h3⟩, if_pos h4]
  dsimp only
  rw [if_neg h5]

/-- When the guard passes, POF mode is off, and the incremented counter
exceeds the threshold with no fetch in flight, the decision point is
exactly the fetch-start branch. -/
theorem decisionPoint_fetch (r1 r2 : ℝ) (em : String) (sp : Option ℝ)
    (s : AppState) (h1 : s.currentAudio = none)
    (h2 : s.isWaitingForNextMessage = false) (h3 : s.selector.ready = true)
    (h4 : s.isInPOFMode = false)
    (h5 : LOCAL_PHRASES_BEFORE_POF < s.localPhraseCount + 1)
    (h6 : s.pofRequestInProgress = false) :
    decisionPoint r1 r2 em sp s =
      fetchPOFStart { s with localPhraseCount := 0, isWaitingForNextMessage := true } := by
  unfold decisionPoint
  rw [if_pos ⟨h1, h2, h3⟩, if_pos h4]
  dsimp only
  rw [if_pos ⟨h5, h6⟩]

/-- When audio is playing, an advance is pending, or the selector is
not ready, the decision point does nothing. -/
theorem decisionPoint_blocked (r1 r2 : ℝ) (em : String) (sp : Option ℝ)
    (s : AppState)
    (h : ¬(s.currentAudio = none ∧ s.isWaitingForNextMessage = false ∧
      s.selector.ready = true)) :
    decisionPoint r1 r2 em sp s = s := by
  unfold decisionPoint
  rw [if_neg h]

/-- C4: when the remote phrase fetch fails (thrown error, non-2xx,
non-array payload — all modelled by `none`) or returns an empty array,
the sequencer ends in local mode with the batch cleared, the index and
waiting flag reset and the in-flight flag cleared, the user-visible
display and audio state untouched; and the very next decision point
(audio idle, selector ready, counter below the threshold) takes the
local-selection branch and issues no fetch. -/
theorem fetch_failure_falls_back (s : AppState) (response : Option (List String))
    (hfail : response = none ∨ response = some []) :
    (fetchPOFContinue response s).isInPOFMode = false ∧
    (fetchPOFContinue response s).pofPhrases = [] ∧
    (fetchPOFContinue response s).currentPOFPhraseIndex = 0 ∧
    (fetchPOFContinue response s).isWaitingForNextMessage = false ∧
    (fetchPOFContinue response s).pofRequestInProgress = false ∧
    (fetchPOFContinue response s).phraseCurrent = s.phraseCurrent ∧
    (fetchPOFContinue response s).phraseIsVLM = s.phraseIsVLM ∧
    (fetchPOFContinue response s).currentAudio = s.currentAudio ∧
    (∀ r1 r2 em sp, s.currentAudio = none → s.selector.ready = true →
      s.localPhraseCount + 1 ≤ LOCAL_PHRASES_BEFORE_POF →
      decisionPoint r1 r2 em sp (fetchPOFContinue response s) =
        selectAndPlayLocalPhrase r1 r2 em sp
          { fetchPOFContinue response s with
            localPhraseCount := (fetchPOFContinue response s).localPhraseCount + 1 } ∧
      (decisionPoint r1 r2 em sp (fetchPOFContinue response s)).fetchCount =
        s.fetchCount) := by
  have aux : (fetchPOFContinue none s).isInPOFMode = false ∧
      (fetchPOFContinue none s).pofPhrases = [] ∧
      (fetchPOFContinue none s).currentPOFPhraseIndex = 0 ∧
      (fetchPOFContinue none s).isWaitingForNextMessage = false ∧
      (fetchPOFContinue none s).pofRequestInProgress = false ∧
      (fetchPOFContinue none s).phraseCurrent = s.phraseCurrent ∧
      (fetchPOFContinue none s).phraseIsVLM = s.phraseIsVLM ∧
      (fetchPOFContinue none s).currentAudio = s.currentAudio ∧
      (∀ r1 r2 em sp, s.currentAudio = none → s.selector.ready = true →
        s.localPhraseCount + 1 ≤ LOCAL_PHRASES_BEFORE_POF →
        decisionPoint r1 r2 em sp (fetchPOFContinue none s) =
          selectAndPlayLocalPhrase r1 r2 em sp
            { fetchPOFContinue none s with
              localPhraseCount := (fetchPOFContinue none s).localPhraseCount + 1 } ∧
        (decisionPoint r1 r2 em sp (fetchPOFContinue none s)).fetchCount =
          s.fetchCount) := by
    refine ⟨rfl, rfl, rfl, rfl, rfl, rfl, rfl, rfl, ?_⟩
    intro r1 r2 em sp haudio hready hcount
    have hdp := decisionPoint_local r1 r2 em sp (fetchPOFContinue none s)
      haudio rfl hready rfl
      (fun hand => by
        have h3 : LOCAL_PHRASES_BEFORE_POF < s.localPhraseCount + 1 := hand.1
        simp only [LOCAL_PHRASES_BEFORE_POF] at h3 hcount
        omega)
    refine ⟨hdp, ?_⟩
    rw [hdp, fetchCount_selectAndPlay]
    rfl
  rcases hfail with rfl | rfl
  · exact aux
  · exact aux

theorem fetch_failure_falls_back_witness :
    (fetchPOFContinue none c4State).isInPOFMode = false ∧
    decisionPoint 0 0 "x" none (fetchPOFContinue none c4State) =
      selectAndPlayLocalPhrase 0 0 "x" none
        { fetchPOFContinue none c4State with
          localPhraseCount := (fetchPOFContinue none c4State).localPhraseCount + 1 } := by
  obtain ⟨h1, -, -, -, -, -, -, -, h9⟩ :=
    fetch_failure_falls_back c4State none (Or.inl rfl)
  exact ⟨h1, (h9 0 0 "x" none rfl rfl (by decide)).1⟩

/-- C2 (exhibit of the violation): after `stopCamera` runs while a POF
request is in flight, the audio, timeout, tracking map and all
sequencer state are indeed cleared — but the fetch continuation still
fires afterwards: when the response arrives it re-enters POF mode and
starts playback of the remote phrase on the stopped session. -/
theorem stopCamera_fetch_continuation_fires :
    c2Stopped.currentAudio = none ∧
    c2Stopped.nextMessageTimeout = false ∧
    c2Stopped.tracker.faceMovementData = [] ∧
    c2Stopped.tracker.previousDetections = [] ∧
    c2Stopped.isWaitingForNextMessage = false ∧
    c2Stopped.localPhraseCount = 0 ∧
    c2Stopped.isInPOFMode = false ∧
    c2Stopped.pofPhrases = [] ∧
    c2Stopped.currentPOFPhraseIndex = 0 ∧
    c2Stopped.pofRequestInProgress = false ∧
    c2Stopped.isRunning = false ∧
    (fetchPOFContinue (some ["Hi"]) c2Stopped).currentAudio = some ("Hi", true) ∧
    (fetchPOFContinue (some ["Hi"]) c2Stopped).isInPOFMode = true ∧
    (fetchPOFContinue (some ["Hi"]) c2Stopped).phraseCurrent = some "Hi" := by
  refine ⟨rfl, rfl, rfl, rfl, rfl, rfl, rfl, rfl, rfl, rfl, rfl, ?_, ?_, ?_⟩ <;> rfl

theorem selectAndPlay_solo (sp : Option ℝ) (recent : List String)
    (la : Option (String × Option ℝ)) (s : AppState)
    (hsel : s.selector = ⟨some soloCatalog, recent, true, la⟩)
    (hrec : recent = [] ∨ recent = ["P"]) :
    selectAndPlayLocalPhrase 0 0 "x" sp s =
      playPhraseAudioCore "P" false
        { s with selector := ⟨some soloCatalog, ["P"], true, some ("x", sp)⟩ } := by
  unfold selectAndPlayLocalPhrase
  rw [hsel, selectPhrase_solo sp recent la hrec]

theorem decisionPoint_inflight_no_fetch (s : AppState) (r1 r2 : ℝ) (em : String)
    (sp : Option ℝ) (h : s.pofRequestInProgress = true) :
    (decisionPoint r1 r2 em sp s).fetchCount = s.fetchCount := by
  unfold decisionPoint
  split
  · split
    · dsimp only
      split
      · next hc =>
        rw [h] at hc
        exact absurd hc.2 (by simp)
      · rw [fetchCount_selectAndPlay]
    · rfl
  · rfl

/-- C3: from the reset sequencer state with a primary face present,
three consecutive local phrases play while the counter steps 1, 2, 3;
the 4th decision point issues a remote fetch (exactly one request,
in-flight flag raised, no local phrase played) instead of a local
selection; once the two-item remote batch is exhausted the local
counter is 0 and POF mode is off, starting a new local cycle; and a
decision point never issues a fetch while one is already in flight. -/
theorem local_remote_cycle :
    c3Run1.localPhraseCount = 1 ∧ c3Run1.currentAudio = some ("P", false) ∧
    c3Run1.fetchCount = 0 ∧
    c3Run2.localPhraseCount = 2 ∧ c3Run2.currentAudio = some ("P", false) ∧
    c3Run2.fetchCount = 0 ∧
    c3Run3.localPhraseCount = 3 ∧ c3Run3.currentAudio = some ("P", false) ∧
    c3Run3.fetchCount = 0 ∧
    c3Run4.currentAudio = none ∧ c3Run4.pofRequestInProgress = true ∧
    c3Run4.fetchCount = 1 ∧ c3Run4.localPhraseCount = 0 ∧
    c3Run4.isWaitingForNextMessage = true ∧
    c3Run5.currentAudio = some ("A", true) ∧ c3Run5.isInPOFMode = true ∧
    c3Run5.pofRequestInProgress = false ∧
    c3Run6.currentAudio = some ("B", true) ∧ c3Run6.currentPOFPhraseIndex = 1 ∧
    c3Run7.isInPOFMode = false ∧ c3Run7.localPhraseCount = 0 ∧
    c3Run7.pofPhrases = [] ∧ c3Run7.currentPOFPhraseIndex = 0 ∧
    (∀ (s : AppState) (r1 r2 : ℝ) (em : String) (sp : Option ℝ),
      s.pofRequestInProgress = true →
      (decisionPoint r1 r2 em sp s).fetchCount = s.fetchCount) := by
  have h1 : c3Run1 = ⟨true, some ("P", false), false, false, some "P", false, 1,
      false, [], 0, false, none, ⟨some soloCatalog, ["P"], true, some ("x", none)⟩,
      initTracker, 0⟩ := by
    unfold c3Run1 c3Decision
    rw [decisionPoint_local 0 0 "x" none (startedAppState soloCatalog)
      rfl rfl rfl rfl (by decide)]
    rw [selectAndPlay_solo none [] none _ rfl (Or.inl rfl)]
    rfl
  have h2 : c3Run2 = ⟨true, some ("P", false), false, false, some "P", false, 2,
      false, [], 0, false, none, ⟨some soloCatalog, ["P"], true, some ("x", none)⟩,
      initTracker, 0⟩ := by
    unfold c3Run2 c3Decision
    rw [h1]
    rw [decisionPoint_local 0 0 "x" none _ rfl rfl rfl rfl (by decide)]
    rw [selectAndPlay_solo none ["P"] (some ("x", none)) _ rfl (Or.inr rfl)]
    rfl
  have h3 : c3Run3 = ⟨true, some ("P", false), false, false, some "P", false, 3,
      false, [], 0, false, none, ⟨some soloCatalog, ["P"], true, some ("x", none)⟩,
      initTracker, 0⟩ := by
    unfold c3Run3 c3Decision
    rw [h2]
    rw [decisionPoint_local 0 0 "x" none _ rfl rfl rfl rfl (by decide)]
    rw [selectAndPlay_solo none ["P"] (some ("x", none)) _ rfl (Or.inr rfl)]
    rfl
  have h4 : c3Run4 = ⟨true, none, true, false, some "P", false, 0,
      false, [], 0, true, none, ⟨some soloCatalog, ["P"], true, some ("x", none)⟩,
      initTracker, 1⟩ := by
    unfold c3Run4 c3Decision
    rw [h3]
    rw [decisionPoint_fetch 0 0 "x" none _ rfl rfl rfl rfl (by decide) rfl]
    rfl
  have h5 : c3Run5 = ⟨true, some ("A", true), false, false, some "A", true, 0,
      true, ["A", "B"], 0, false, none,
      ⟨some soloCatalog, ["P"], true, some ("x", none)⟩, initTracker, 1⟩ := by
    unfold c3Run5
    rw [h4]
    rfl
  have h6 : c3Run6 = ⟨true, some ("B", true), false, false, some "B", true, 0,
      true, ["A", "B"], 1, false, none,
      ⟨some soloCatalog, ["P"], true, some ("x", none)⟩, initTracker, 1⟩ := by
    unfold c3Run6 c3Advance
    rw [h5]
    rfl
  have h7 : c3Run7 = ⟨true, none, false, false, some "B", true, 0,
      false, [], 0, false, none,
      ⟨some soloCatalog, ["P"], true, some ("x", none)⟩, initTracker, 1⟩ := by
    unfold c3Run7 c3Advance
    rw [h6]
    rfl
  refine ⟨?_, ?_, ?_, ?_, ?_, ?_, ?_, ?_, ?_, ?_, ?_, ?_, ?_, ?_, ?_, ?_, ?_,
    ?_, ?_, ?_, ?_, ?_, ?_, fun s r1 r2 em sp h => decisionPoint_inflight_no_fetch s r1 r2 em sp h⟩ <;>
    simp [h1, h2, h3, h4, h5, h6, h7]

theorem local_remote_cycle_witness :
    (decisionPoint 0 0 "x" none c3Run4).fetchCount = c3Run4.fetchCount := by
  obtain ⟨-, -, -, -, -, -, -, -, -, -, hflag, -, -, -, -, -, -, -, -, -, -, -, -,
    hlast⟩ := local_remote_cycle
  exact hlast c3Run4 0 0 "x" none hflag

theorem qual_none (cc : ℝ × ℝ) (thr : ℝ) (pd : PrevDet) :
    qual cc thr none pd ↔ distance cc (center pd.box) < thr :=
  ⟨And.left, fun h => ⟨h, fun m hm => nomatch hm⟩⟩

theorem qual_some (cc : ℝ × ℝ) (thr m : ℝ) (pd : PrevDet) :
    qual cc thr (some m) pd ↔
      distance cc (center pd.box) < thr ∧ distance cc (center pd.box) < m := by
  constructor
  · intro h
    exact ⟨h.1, h.2 m rfl⟩
  · intro h
    refine ⟨h.1, fun m' hm' => ?_⟩
    cases hm'
    exact h.2

theorem matchAux_none_qual (cc : ℝ × ℝ) (thr : ℝ) :
    ∀ (l : List PrevDet) (idx : ℕ) (best : ℤ) (minD : Option ℝ),
    (∀ pd ∈ l, ¬ qual cc thr minD pd) →
    matchAux cc thr l idx best minD = best := by
  intro l
  induction l with
  | nil => intro idx best minD _; rfl
  | cons pd rest ih =>
    intro idx best minD h
    have hpd := h pd (List.mem_cons_self pd rest)
    have hrest : ∀ q ∈ rest, ¬ qual cc thr minD q :=
      fun q hq => h q (List.mem_cons_of_mem _ hq)
    cases minD with
    | none =>
      simp only [matchAux]
      rw [if_neg (fun hd => hpd ((qual_none cc thr pd).mpr hd))]
      exact ih (idx + 1) best none hrest
    | some m =>
      simp only [matchAux]
      rw [if_neg (fun hd => hpd ((qual_some cc thr m pd).mpr hd))]
      exact ih (idx + 1) best (some m) hrest

/-- The single-step reduction of the scan when the head qualifies. -/
theorem matchAux_cons_pos (cc : ℝ × ℝ) (thr : ℝ) (pd : PrevDet)
    (rest : List PrevDet) (idx : ℕ) (best : ℤ) (minD : Option ℝ)
    (h : qual cc thr minD pd) :
    matchAux cc thr (pd :: rest) idx best minD =
      matchAux cc thr rest (idx + 1) (idx : ℤ)
        (some (distance cc (center pd.box))) := by
  cases minD with
  | none =>
    simp only [matchAux]
    rw [if_pos h.1]
  | some m =>
    simp only [matchAux]
    rw [if_pos ((qual_some cc thr m pd).mp h)]

/-- The single-step reduction of the scan when the head does not
qualify. -/
theorem matchAux_cons_neg (cc : ℝ × ℝ) (thr : ℝ) (pd : PrevDet)
    (rest : List PrevDet) (idx : ℕ) (best : ℤ) (minD : Option ℝ)
    (h : ¬ qual cc thr minD pd) :
    matchAux cc thr (pd :: rest) idx best minD =
      matchAux cc thr rest (idx + 1) best minD := by
  cases minD with
  | none =>
    simp only [matchAux]
    rw [if_neg (fun hd => h ((qual_none cc thr pd).mpr hd))]
  | some m =>
    simp only [matchAux]
    rw [if_neg (fun hd => h ((qual_some cc thr m pd).mpr hd))]

/-- The scan returns the position of the first occurrence of the
minimal qualifying distance, relative to its accumulators. -/
theorem matchAux_found (cc : ℝ × ℝ) (thr : ℝ) :
    ∀ (l : List PrevDet) (idx : ℕ) (best : ℤ) (minD : Option ℝ),
    (∃ pd ∈ l, qual cc thr minD pd) →
    ∃ (k : ℕ) (pd : PrevDet), l.get? k = some pd ∧
      matchAux cc thr l idx best minD = (idx : ℤ) + k ∧
      qual cc thr minD pd ∧
      (∀ j pdj, l.get? j = some pdj → qual cc thr minD pdj →
        distance cc (center pd.box) ≤ distance cc (center pdj.box)) ∧
      (∀ j pdj, j < k → l.get? j = some pdj → qual cc thr minD pdj →
        distance cc (center pd.box) < distance cc (center pdj.box)) := by
  intro l
  induction l with
  | nil =>
    intro idx best minD hex
    simp at hex
  | cons pd0 rest ih =>
    intro idx best minD hex
    by_cases h0 : qual cc thr minD pd0
    · rw [matchAux_cons_pos cc thr pd0 rest idx best minD h0]
      by_cases hrest : ∃ pd ∈ rest, qual cc thr (some (distance cc (center pd0.box))) pd
      · obtain ⟨k', pd', hget', heq', hqual', hmin', hlt'⟩ :=
          ih (idx + 1) (idx : ℤ) (some (distance cc (center pd0.box))) hrest
        have hlt0 : distance cc (center pd'.box) < distance cc (center pd0.box) :=
          hqual'.2 _ rfl
        refine ⟨k' + 1, pd', by simpa using hget', ?_, ?_, ?_, ?_⟩
        · rw [heq']
          push_cast
          ring
        · exact ⟨hqual'.1, fun m hm => lt_trans hlt0 (h0.2 m hm)⟩
        · intro j pdj hj hqj
          cases j with
          | zero =>
            cases hj
            exact le_of_lt hlt0
          | succ j' =>
            by_cases hq' : qual cc thr (some (distance cc (center pd0.box))) pdj
            · exact hmin' j' pdj (by simpa using hj) hq'
            · have hge : distance cc (center pd0.box) ≤ distance cc (center pdj.box) := by
                by_contra hc
                push_neg at hc
                exact hq' ⟨hqj.1, fun m hm => by cases hm; exact hc⟩
              exact le_of_lt (lt_of_lt_of_le hlt0 hge)
        · intro j pdj hjk hj hqj
          cases j with
          | zero =>
            cases hj
            exact hlt0
          | succ j' =>
            by_cases hq' : qual cc thr (some (distance cc (center pd0.box))) pdj
            · exact hlt' j' pdj (by omega) (by simpa using hj) hq'
            · have hge : distance cc (center pd0.box) ≤ distance cc (center pdj.box) := by
                by_contra hc
                push_neg at hc
                exact hq' ⟨hqj.1, fun m hm => by cases hm; exact hc⟩
              exact lt_of_lt_of_le hlt0 hge
      · push_neg at hrest
        have hr := matchAux_none_qual cc thr rest (idx + 1) (idx : ℤ)
          (some (distance cc (center pd0.box))) hrest
        refine ⟨0, pd0, rfl, by rw [hr]; simp, h0, ?_, ?_⟩
        · intro j pdj hj hqj
          cases j with
          | zero =>
            cases hj
            exact le_refl _
          | succ j' =>
            have hmem : pdj ∈ rest := List.get?_mem (by simpa using hj)
            have := hrest pdj hmem
            by_contra hc
            push_neg at hc
            exact this ⟨hqj.1, fun m hm => by cases hm; exact hc⟩
        · intro j pdj hjk _ _
          omega
    · rw [matchAux_cons_neg cc thr pd0 rest idx best minD h0]
      have hex' : ∃ pd ∈ rest, qual cc thr minD pd := by
        rcases hex with ⟨pd, hmem, hq⟩
        rcases List.mem_cons.1 hmem with rfl | hmem'
        · exact absurd hq h0
        · exact ⟨pd, hmem', hq⟩
      obtain ⟨k', pd', hget', heq', hqual', hmin', hlt'⟩ :=
        ih (idx + 1) best minD hex'
      refine ⟨k' + 1, pd', by simpa using hget', ?_, hqual', ?_, ?_⟩
      · rw [heq']
        push_cast
        ring
      · intro j pdj hj hqj
        cases j with
        | zero =>
          cases hj
          exact absurd hqj h0
        | succ j' =>
          exact hmin' j' pdj (by simpa using hj) hqj
      · intro j pdj hjk hj hqj
        cases j with
        | zero =>
          cases hj
          exact absurd hqj h0
        | succ j' =>
          exact hlt' j' pdj (by omega) (by simpa using hj) hqj

/-- C5: matching is a deterministic function of the boxes and the
100-unit threshold.  Whenever some previous-frame centroid lies
strictly within 100 units, `matchFaceToPrevious` returns an index whose
distance is minimal among all qualifying previous detections, with the
earliest index winning exact ties; in particular, when exactly one
previous detection qualifies and carries an identity, that index is
returned and `updateMovementTracking`'s identity assignment reuses that
identity. -/
theorem matching_nearest_deterministic (currentBox : Box)
    (previousBoxes : List PrevDet) :
    ((∃ pd ∈ previousBoxes, distance (center currentBox) (center pd.box) < 100) →
      ∃ (k : ℕ) (pd : PrevDet), previousBoxes.get? k = some pd ∧
        matchFaceToPrevious currentBox previousBoxes = (k : ℤ) ∧
        distance (center currentBox) (center pd.box) < 100 ∧
        (∀ j pdj, previousBoxes.get? j = some pdj →
          distance (center currentBox) (center pdj.box) < 100 →
          distance (center currentBox) (center pd.box) ≤
            distance (center currentBox) (center pdj.box)) ∧
        (∀ j pdj, j < k → previousBoxes.get? j = some pdj →
          distance (center currentBox) (center pdj.box) < 100 →
          distance (center currentBox) (center pd.box) <
            distance (center currentBox) (center pdj.box))) ∧
    (∀ (k : ℕ) (pd : PrevDet) (fid : FaceId),
      previousBoxes.get? k = some pd → pd.faceId = some fid →
      distance (center currentBox) (center pd.box) < 100 →
      (∀ j pdj, previousBoxes.get? j = some pdj → j ≠ k →
        ¬ distance (center currentBox) (center pdj.box) < 100) →
      matchFaceToPrevious currentBox previousBoxes = (k : ℤ) ∧
      ∀ (frameCount currentTime : ℤ) (idx : ℕ) (now : ℤ),
        (assignFaceId currentBox previousBoxes frameCount currentTime idx now).1
          = fid) := by
  have main : (∃ pd ∈ previousBoxes,
      distance (center currentBox) (center pd.box) < 100) →
      ∃ (k : ℕ) (pd : PrevDet), previousBoxes.get? k = some pd ∧
        matchFaceToPrevious currentBox previousBoxes = (k : ℤ) ∧
        distance (center currentBox) (center pd.box) < 100 ∧
        (∀ j pdj, previousBoxes.get? j = some pdj →
          distance (center currentBox) (center pdj.box) < 100 →
          distance (center currentBox) (center pd.box) ≤
            distance (center currentBox) (center pdj.box)) ∧
        (∀ j pdj, j < k → previousBoxes.get? j = some pdj →
          distance (center currentBox) (center pdj.box) < 100 →
          distance (center currentBox) (center pd.box) <
            distance (center currentBox) (center pdj.box)) := by
    intro hex
    have hex' : ∃ pd ∈ previousBoxes, qual (center currentBox) 100 none pd := by
      rcases hex with ⟨pd, hmem, hd⟩
      exact ⟨pd, hmem, (qual_none _ _ _).mpr hd⟩
    obtain ⟨k, pd, hget, heq, hq, hmin, hlt⟩ :=
      matchAux_found (center currentBox) 100 previousBoxes 0 (-1) none hex'
    refine ⟨k, pd, hget, ?_, (qual_none _ _ _).mp hq, ?_, ?_⟩
    · unfold matchFaceToPrevious
      rw [heq]
      simp
    · intro j pdj hj hdj
      exact hmin j pdj hj ((qual_none _ _ _).mpr hdj)
    · intro j pdj hjk hj hdj
      exact hlt j pdj hjk hj ((qual_none _ _ _).mpr hdj)
  refine ⟨main, ?_⟩
  intro k pd fid hget hfid hdist huniq
  obtain ⟨k0, pd0, hget0, heq0, hd0, -, -⟩ :=
    main ⟨pd, List.get?_mem hget, hdist⟩
  have hk : k0 = k := by
    by_contra hne
    exact huniq k0 pd0 hget0 hne hd0
  subst hk
  have hpd : pd0 = pd := Option.some_injective _ (hget0.symm.trans hget)
  subst hpd
  refine ⟨heq0, ?_⟩
  intro fc ct i now
  unfold assignFaceId
  dsimp only
  rw [heq0, if_pos (Int.natCast_nonneg k0), Int.toNat_natCast, hget]
  dsimp only
  rw [hfid]

theorem matching_nearest_deterministic_witness :
    (assignFaceId ⟨0, 0, 10, 10⟩ [⟨0, 0, 10, 10, some ⟨1, 2, 3⟩, some 1⟩]
      2 2 0 9).1 = ⟨1, 2, 3⟩ := by
  have hd : distance (center (⟨0, 0, 10, 10⟩ : Box))
      (center (PrevDet.box ⟨0, 0, 10, 10, some ⟨1, 2, 3⟩, some 1⟩)) < 100 := by
    show distance (center (⟨0, 0, 10, 10⟩ : Box))
      (center (⟨0, 0, 10, 10⟩ : Box)) < 100
    unfold distance center
    norm_num
  have h := (matching_nearest_deterministic ⟨0, 0, 10, 10⟩
      [⟨0, 0, 10, 10, some ⟨1, 2, 3⟩, some 1⟩]).2 0 ⟨0, 0, 10, 10, some ⟨1, 2, 3⟩, some 1⟩
      ⟨1, 2, 3⟩ rfl rfl hd ?_
  · exact h.2 2 2 0 9
  · intro j pdj hj hne
    cases j with
    | zero => exact absurd rfl hne
    | succ j' => exact absurd hj (by simp)

theorem assignFaceId_fresh_or_prev (box : Box) (prev : List PrevDet)
    (fc ct : ℤ) (idx : ℕ) (now : ℤ) :
    (∃ pd ∈ prev, pd.faceId = some (assignFaceId box prev fc ct idx now).1) ∨
    (assignFaceId box prev fc ct idx now).1 = ⟨fc, idx, now⟩ := by
  unfold assignFaceId
  dsimp only
  by_cases h : 0 ≤ matchFaceToPrevious box prev
  · rw [if_pos h]
    cases hg : prev.get? (matchFaceToPrevious box prev).toNat with
    | none =>
      right
      rfl
    | some pd =>
      dsimp only
      cases hf : pd.faceId with
      | none =>
        right
        rfl
      | some fid =>
        left
        exact ⟨pd, List.get?_mem hg, hf⟩
  · rw [if_neg h]
    right
    rfl

theorem assignFaceId_frame_le (box : Box) (prev : List PrevDet) (fc ct : ℤ)
    (idx : ℕ) (now : ℤ) (c : ℤ)
    (hprev : ∀ pd ∈ prev, ∀ fid, pd.faceId = some fid → fid.frame ≤ c)
    (hfc : fc ≤ c) :
    (assignFaceId box prev fc ct idx now).1.frame ≤ c := by
  rcases assignFaceId_fresh_or_prev box prev fc ct idx now with ⟨pd, hmem, hf⟩ | hfresh
  · exact hprev pd hmem _ hf
  · rw [hfresh]
    exact hfc

theorem mapSet_keys (P : FaceId → Prop) (m : TrackMap) (k : FaceId) (v : FaceData)
    (hm : ∀ kv ∈ m, P kv.1) (hk : P k) : ∀ kv ∈ mapSet m k v, P kv.1 := by
  intro kv hkv
  unfold mapSet at hkv
  split at hkv
  · rcases List.mem_map.1 hkv with ⟨kv', hkv', rfl⟩
    split
    · exact hk
    · exact hm kv' hkv'
  · rcases List.mem_append.1 hkv with h | h
    · exact hm kv h
    · rw [List.mem_singleton.1 h]
      exact hk

theorem mapSet_mem_ne (m : TrackMap) (k : FaceId) (v : FaceData)
    (kv : FaceId × FaceData) (hne : k ≠ kv.1) :
    kv ∈ mapSet m k v ↔ kv ∈ m := by
  unfold mapSet
  split
  · constructor
    · intro h
      rcases List.mem_map.1 h with ⟨kv', hkv', heq⟩
      by_cases hc : kv'.1 = k
      · rw [if_pos hc] at heq
        exact absurd (congrArg Prod.fst heq) (fun hh => hne hh)
      · rw [if_neg hc] at heq
        rw [← heq]
        exact hkv'
    · intro h
      refine List.mem_map.2 ⟨kv, h, ?_⟩
      rw [if_neg (fun hc => hne hc.symm)]
  · rw [List.mem_append]
    constructor
    · intro h
      rcases h with h | h
      · exact h
      · exact absurd (congrArg Prod.fst (List.mem_singleton.1 h))
          (fun hh => hne hh.symm)
    · exact Or.inl

theorem processDetections_bound (prev : List PrevDet) (fc ct now : ℤ)
    (P : FaceId → Prop)
    (hassign : ∀ (b : Box) (i : ℕ), P (assignFaceId b prev fc ct i now).1) :
    ∀ (boxes : List Box) (idx : ℕ) (m : TrackMap),
      (∀ kv ∈ m, P kv.1) →
      (∀ kv ∈ (processDetections prev fc ct now boxes idx m).2, P kv.1) ∧
      (∀ d ∈ (processDetections prev fc ct now boxes idx m).1, P d.faceId) := by
  intro boxes
  induction boxes with
  | nil =>
    intro idx m hm
    exact ⟨hm, by simp [processDetections]⟩
  | cons box rest ih =>
    intro idx m hm
    have hfid : P (assignFaceId box prev fc ct idx now).1 := hassign box idx
    have hm1 : ∀ kv ∈ (if mapHas m (assignFaceId box prev fc ct idx now).1 then m
        else mapSet m (assignFaceId box prev fc ct idx now).1 ⟨[], [], [], none, ct⟩),
        P kv.1 := by
      split
      · exact hm
      · exact mapSet_keys P m _ _ hm hfid
    constructor
    · intro kv hkv
      simp only [processDetections] at hkv
      exact (ih (idx + 1) _ (mapSet_keys P _ _ _ hm1 hfid)).1 kv hkv
    · intro d hd
      simp only [processDetections] at hd
      rcases List.mem_cons.1 hd with rfl | hd'
      · exact hfid
      · exact (ih (idx + 1) _ (mapSet_keys P _ _ _ hm1 hfid)).2 d hd'

theorem processDetections_untouched (prev : List PrevDet) (fc ct now : ℤ) :
    ∀ (boxes : List Box) (idx : ℕ) (m : TrackMap) (kv : FaceId × FaceData),
      (∀ d ∈ (processDetections prev fc ct now boxes idx m).1, d.faceId ≠ kv.1) →
      (kv ∈ (processDetections prev fc ct now boxes idx m).2 ↔ kv ∈ m) := by
  intro boxes
  induction boxes with
  | nil =>
    intro idx m kv _
    simp [processDetections]
  | cons box rest ih =>
    intro idx m kv hne
    have hhead : (assignFaceId box prev fc ct idx now).1 ≠ kv.1 :=
      hne ⟨box, (assignFaceId box prev fc ct idx now).1, ct⟩
        (by simp only [processDetections]; exact List.mem_cons_self _ _)
    constructor
    · intro h
      simp only [processDetections] at h
      have h2 := (ih (idx + 1) _ kv ?_).1 h
      · have h3 := (mapSet_mem_ne _ _ _ kv hhead).1 h2
        split at h3
        · exact h3
        · exact (mapSet_mem_ne _ _ _ kv hhead).1 h3
      · intro d hd
        apply hne
        simp only [processDetections]
        exact List.mem_cons_of_mem _ hd
    · intro h
      simp only [processDetections]
      apply (ih (idx + 1) _ kv ?_).2
      · apply (mapSet_mem_ne _ _ _ kv hhead).2
        split
        · exact h
        · exact (mapSet_mem_ne _ _ _ kv hhead).2 h
      · intro d hd
        apply hne
        simp only [processDetections]
        exact List.mem_cons_of_mem _ hd

theorem sweepStale_mem (m : TrackMap) (annot : List AnnotDet) (fc : ℤ)
    (kv : FaceId × FaceData) :
    kv ∈ sweepStale m annot fc ↔
      kv ∈ m ∧ ((∃ d ∈ annot, d.faceId = kv.1) ∨ ¬(30 < fc - kv.2.lastTime)) := by
  unfold sweepStale
  rw [List.mem_filter]
  simp [List.any_eq_true]

theorem trackerFrame_snd (dets : List Box) (now : ℤ) (t : TrackerState) :
    (trackerFrame dets now t).2 =
      (processDetections t.previousDetections (t.frameCount + 1)
        (t.frameCount + 1) now dets 0 t.faceMovementData).1 := rfl

theorem trackerFrame_map (dets : List Box) (now : ℤ) (t : TrackerState) :
    (trackerFrame dets now t).1.faceMovementData =
      sweepStale
        (processDetections t.previousDetections (t.frameCount + 1)
          (t.frameCount + 1) now dets 0 t.faceMovementData).2
        (processDetections t.previousDetections (t.frameCount + 1)
          (t.frameCount + 1) now dets 0 t.faceMovementData).1
        (t.frameCount + 1) := rfl

theorem trackerFrame_prev (dets : List Box) (now : ℤ) (t : TrackerState) :
    (trackerFrame dets now t).1.previousDetections =
      (processDetections t.previousDetections (t.frameCount + 1)
        (t.frameCount + 1) now dets 0 t.faceMovementData).1.map
        (fun d => (⟨d.box.x, d.box.y, d.box.width, d.box.height,
          some d.faceId, some d.timestamp⟩ : PrevDet)) := rfl

theorem trackerFrame_frameCount (dets : List Box) (now : ℤ) (t : TrackerState) :
    (trackerFrame dets now t).1.frameCount = t.frameCount + 1 := rfl

theorem trackerFrame_bound (dets : List Box) (now : ℤ) (t : TrackerState)
    (h : trackerIdBound t) : trackerIdBound (trackerFrame dets now t).1 := by
  have hassign : ∀ (b : Box) (i : ℕ),
      (fun fid => fid.frame ≤ t.frameCount + 1)
        (assignFaceId b t.previousDetections (t.frameCount + 1)
          (t.frameCount + 1) i now).1 := by
    intro b i
    apply assignFaceId_frame_le
    · intro pd hmem fid hf
      exact le_trans (h.2 pd hmem fid hf) (by linarith)
    · exact le_refl _
  have hm : ∀ kv ∈ t.faceMovementData, (fun fid => fid.frame ≤ t.frameCount + 1) kv.1 :=
    fun kv hkv => le_trans (h.1 kv hkv) (by linarith)
  have hb := processDetections_bound t.previousDetections (t.frameCount + 1)
    (t.frameCount + 1) now (fun fid => fid.frame ≤ t.frameCount + 1) hassign dets 0
    t.faceMovementData hm
  constructor
  · intro kv hkv
    rw [trackerFrame_frameCount]
    rw [trackerFrame_map] at hkv
    exact hb.1 kv ((sweepStale_mem _ _ _ kv).1 hkv).1
  · intro pd hmem fid hf
    rw [trackerFrame_frameCount]
    rw [trackerFrame_prev] at hmem
    rcases List.mem_map.1 hmem with ⟨d, hd, rfl⟩
    have hfd : d.faceId = fid := Option.some_injective _ hf
    rw [← hfd]
    exact hb.2 d hd

theorem runSteps_bound : ∀ (script : List (List Box × ℤ)) (t : TrackerState),
    trackerIdBound t → trackerIdBound (runSteps script t)
  | [], _, h => h
  | (dets, now) :: rest, t, h =>
    runSteps_bound rest _ (trackerFrame_bound dets now t h)

theorem runSteps_frameCount : ∀ (script : List (List Box × ℤ)) (t : TrackerState),
    t.frameCount ≤ (runSteps script t).frameCount
  | [], _ => le_refl _
  | (dets, now) :: rest, t => by
    have h1 := runSteps_frameCount rest (trackerFrame dets now t).1
    have h2 : (trackerFrame dets now t).1.frameCount = t.frameCount + 1 := rfl
    calc t.frameCount ≤ t.frameCount + 1 := by linarith
      _ = (trackerFrame dets now t).1.frameCount := h2.symm
      _ ≤ _ := h1

theorem initTracker_bound : trackerIdBound initTracker := by
  constructor
  · intro kv hkv
    exact absurd hkv (List.not_mem_nil kv)
  · intro pd hpd
    exact absurd hpd (List.not_mem_nil pd)

/-- C6: after one tracking frame, a tracked identity that is absent
from the frame's detections survives in the map exactly when the number
of frames since its last update is at most 30 (it is deleted once the
gap exceeds 30); and a detection that matches no previous-frame
detection — in particular a face reappearing after its state was
deleted — is assigned the freshly minted identity of the current frame,
which differs from every identity ever stored in any earlier state of
the run. -/
theorem stale_eviction_fresh_identity :
    (∀ (t : TrackerState) (dets : List Box) (now : ℤ) (kv : FaceId × FaceData),
      kv ∈ t.faceMovementData →
      (∀ d ∈ (trackerFrame dets now t).2, d.faceId ≠ kv.1) →
      (kv ∈ (trackerFrame dets now t).1.faceMovementData ↔
        (t.frameCount + 1) - kv.2.lastTime ≤ 30)) ∧
    (∀ (script1 script2 : List (List Box × ℤ)) (kv : FaceId × FaceData)
      (box : Box) (idx : ℕ) (now : ℤ),
      kv ∈ (runSteps script1 initTracker).faceMovementData →
      (∀ pd ∈ (runSteps script2 (runSteps script1 initTracker)).previousDetections,
        ¬ distance (center box) (center pd.box) < 100) →
      (assignFaceId box
        (runSteps script2 (runSteps script1 initTracker)).previousDetections
        ((runSteps script2 (runSteps script1 initTracker)).frameCount + 1)
        ((runSteps script2 (runSteps script1 initTracker)).frameCount + 1)
        idx now).1 =
        ⟨(runSteps script2 (runSteps script1 initTracker)).frameCount + 1, idx, now⟩ ∧
      (⟨(runSteps script2 (runSteps script1 initTracker)).frameCount + 1, idx, now⟩ :
        FaceId) ≠ kv.1) := by
  constructor
  · intro t dets now kv hkv hne
    rw [trackerFrame_snd] at hne
    rw [trackerFrame_map, sweepStale_mem]
    have huntouched := processDetections_untouched t.previousDetections
      (t.frameCount + 1) (t.frameCount + 1) now dets 0 t.faceMovementData kv hne
    constructor
    · rintro ⟨-, hcase⟩
      rcases hcase with ⟨d, hd, hfd⟩ | hle
      · exact absurd hfd (hne d hd)
      · exact not_lt.1 hle
    · intro hle
      exact ⟨huntouched.2 hkv, Or.inr (not_lt.2 hle)⟩
  · intro script1 script2 kv box idx now hkv hfar
    have hmatch : matchFaceToPrevious box
        (runSteps script2 (runSteps script1 initTracker)).previousDetections = -1 := by
      show matchAux (center box) 100
        (runSteps script2 (runSteps script1 initTracker)).previousDetections
        0 (-1) none = -1
      apply matchAux_none_qual
      intro pd hpd hq
      exact hfar pd hpd hq.1
    constructor
    · unfold assignFaceId
      dsimp only
      rw [hmatch, if_neg (by norm_num)]
    · have hb1 := runSteps_bound script1 initTracker initTracker_bound
      have hfr : kv.1.frame ≤ (runSteps script1 initTracker).frameCount :=
        hb1.1 kv hkv
      have hmono := runSteps_frameCount script2 (runSteps script1 initTracker)
      intro heq
      have hframe : ((⟨(runSteps script2 (runSteps script1 initTracker)).frameCount + 1,
          idx, now⟩ : FaceId)).frame = kv.1.frame := congrArg FaceId.frame heq
      simp only at hframe
      omega

theorem stale_eviction_fresh_identity_witness :
    (assignFaceId ⟨1000, 0, 50, 50⟩
      (runSteps [] (runSteps [([⟨0, 0, 50, 50⟩], 5)] initTracker)).previousDetections
      ((runSteps [] (runSteps [([⟨0, 0, 50, 50⟩], 5)] initTracker)).frameCount + 1)
      ((runSteps [] (runSteps [([⟨0, 0, 50, 50⟩], 5)] initTracker)).frameCount + 1)
      0 9).1 =
      ⟨(runSteps [] (runSteps [([⟨0, 0, 50, 50⟩], 5)] initTracker)).frameCount + 1,
        0, 9⟩ ∧
    (⟨(runSteps [] (runSteps [([⟨0, 0, 50, 50⟩], 5)] initTracker)).frameCount + 1,
      0, 9⟩ : FaceId) ≠
      ((⟨1, 0, 5⟩, (⟨[], [], [], some ⟨0, 0, 50, 50⟩, 1⟩ : FaceData)) :
        FaceId × FaceData).1 := by
  have hsqrt : Real.sqrt 1000000 = 1000 := by
    rw [show (1000000 : ℝ) = 1000 ^ 2 by norm_num]
    exact Real.sqrt_sq (by norm_num)
  refine stale_eviction_fresh_identity.2 [([⟨0, 0, 50, 50⟩], 5)] []
    (⟨1, 0, 5⟩, ⟨[], [], [], some ⟨0, 0, 50, 50⟩, 1⟩) ⟨1000, 0, 50, 50⟩ 0 9
    (List.mem_cons_self _ _) ?_
  intro pd hpd
  rw [List.mem_singleton.1 hpd]
  unfold distance center PrevDet.box
  norm_num [hsqrt]

theorem distance_horiz (a b : ℝ) : distance (a + 10, b) (a, b) = 10 := by
  show Real.sqrt ((a - (a + 10)) ^ 2 + (b - b) ^ 2) = 10
  rw [show (a - (a + 10)) ^ 2 + (b - b) ^ 2 = (10 : ℝ) ^ 2 by ring]
  exact Real.sqrt_sq (by norm_num)

theorem matchAux_single (cc : ℝ × ℝ) (pd : PrevDet)
    (h : distance cc (center pd.box) < 100) :
    matchAux cc 100 [pd] 0 (-1) none = 0 := by
  simp only [matchAux]
  rw [if_pos h]
  rfl

theorem match_horiz (x : ℝ) (fid : FaceId) (ts : Option ℤ) :
    matchFaceToPrevious (⟨x + 10, 0, 50, 50⟩ : Box)
      [⟨x, 0, 50, 50, some fid, ts⟩] = 0 := by
  show matchAux (center (⟨x + 10, 0, 50, 50⟩ : Box)) 100
    [⟨x, 0, 50, 50, some fid, ts⟩] 0 (-1) none = 0
  apply matchAux_single
  have h : distance (center (⟨x + 10, 0, 50, 50⟩ : Box))
      (center (PrevDet.box ⟨x, 0, 50, 50, some fid, ts⟩)) =
      distance (x + 50 / 2 + 10, 0 + 50 / 2) (x + 50 / 2, 0 + 50 / 2) := by
    show distance (x + 10 + 50 / 2, 0 + 50 / 2) (x + 50 / 2, 0 + 50 / 2) = _
    rw [show x + 10 + 50 / 2 = x + 50 / 2 + 10 by ring]
  rw [h, distance_horiz]
  norm_num

theorem cartesianToPolar_pos (v : ℝ) (hv : 0 < v) :
    cartesianToPolar v 0 = (v, 0) := by
  unfold cartesianToPolar
  refine Prod.ext ?_ ?_
  · show Real.sqrt (v * v + 0 * 0) = v
    rw [show v * v + 0 * 0 = v ^ 2 by ring]
    exact Real.sqrt_sq hv.le
  · show Complex.arg ⟨v, 0⟩ = 0
    have hco : (⟨v, 0⟩ : ℂ) = (v : ℂ) := rfl
    rw [hco]
    exact Complex.arg_ofReal_of_nonneg hv.le

theorem calcSpeed_eq (cur prevB : Box) (td : ℤ) (htd : ¬ td = 0) :
    calculateMovementSpeed cur (some prevB) td =
      some ⟨(cartesianToPolar (((center cur).1 - (center prevB).1) / (td : ℝ))
          (((center cur).2 - (center prevB).2) / (td : ℝ))).1,
        (cartesianToPolar (((center cur).1 - (center prevB).1) / (td : ℝ))
          (((center cur).2 - (center prevB).2) / (td : ℝ))).2,
        ((center cur).1 - (center prevB).1) / (td : ℝ),
        ((center cur).2 - (center prevB).2) / (td : ℝ)⟩ := by
  unfold calculateMovementSpeed
  dsimp only
  rw [if_neg htd]

theorem calcSpeed_horiz (x : ℝ) :
    calculateMovementSpeed (⟨x + 10, 0, 50, 50⟩ : Box)
      (some (⟨x, 0, 50, 50⟩ : Box)) 1 = some ⟨10, 0, 10, 0⟩ := by
  rw [calcSpeed_eq _ _ 1 (by norm_num)]
  have hvx : ((center (⟨x + 10, 0, 50, 50⟩ : Box)).1 -
      (center (⟨x, 0, 50, 50⟩ : Box)).1) / ((1 : ℤ) : ℝ) = 10 := by
    show (x + 10 + 50 / 2 - (x + 50 / 2)) / ((1 : ℤ) : ℝ) = 10
    push_cast
    ring
  have hvy : ((center (⟨x + 10, 0, 50, 50⟩ : Box)).2 -
      (center (⟨x, 0, 50, 50⟩ : Box)).2) / ((1 : ℤ) : ℝ) = 0 := by
    show (0 + 50 / 2 - (0 + 50 / 2)) / ((1 : ℤ) : ℝ) = 0
    push_cast
    ring
  rw [hvx, hvy, cartesianToPolar_pos 10 (by norm_num)]

theorem mapGet_single (fid : FaceId) (d : FaceData) :
    mapGet [(fid, d)] fid = some d := by
  unfold mapGet
  rw [List.find?_cons_of_pos _ (by simp)]

theorem mapHas_single (fid : FaceId) (d : FaceData) :
    mapHas [(fid, d)] fid = true := by
  unfold mapHas
  rw [mapGet_single]
  rfl

theorem mapSet_single (fid : FaceId) (d v : FaceData) :
    mapSet [(fid, d)] fid v = [(fid, v)] := by
  unfold mapSet
  rw [mapHas_single]
  simp

theorem largestFace_single (d : AnnotDet) (h : 0 < d.box.width) :
    largestFace [d] = some d := by
  unfold largestFace
  simp only [List.foldl]
  rw [if_pos h]

theorem assignFaceId_horiz (x : ℝ) (fid : FaceId) (k now fc : ℤ) (hk : ¬ k = 0) :
    assignFaceId (⟨x + 10, 0, 50, 50⟩ : Box) [⟨x, 0, 50, 50, some fid, some k⟩]
      fc (k + 1) 0 now = (fid, 1) := by
  unfold assignFaceId
  dsimp only
  rw [match_horiz x fid (some k)]
  rw [if_pos (by norm_num : (0 : ℤ) ≤ 0)]
  simp only [Int.toNat_zero, List.get?_cons_zero]
  rw [if_neg hk]
  rw [show k + 1 - k = (1 : ℤ) by ring]
  rw [if_neg (by norm_num : ¬(1 : ℤ) = 0)]

theorem sweepStale_single_present (fid : FaceId) (d : FaceData)
    (annot : List AnnotDet) (fc : ℤ)
    (h : annot.any (fun a => a.faceId = fid) = true) :
    sweepStale [(fid, d)] annot fc = [(fid, d)] := by
  unfold sweepStale
  rw [List.filter_cons_of_pos]
  · rfl
  · simp only [h, Bool.true_or]

theorem ensure_single (fid : FaceId) (d v0 : FaceData) :
    (if mapHas [(fid, d)] fid = true then [(fid, d)]
      else mapSet [(fid, d)] fid v0) = [(fid, d)] := by
  rw [mapHas_single]
  simp

theorem processDetections_horiz (x : ℝ) (fid : FaceId) (sp : List ℝ)
    (tss : List ℤ) (k now : ℤ) (hk : ¬ k = 0) (hlen : sp.length < 5) :
    processDetections [⟨x, 0, 50, 50, some fid, some k⟩] (k + 1) (k + 1) now
      [⟨x + 10, 0, 50, 50⟩] 0
      [(fid, ⟨[], sp, tss, some ⟨x, 0, 50, 50⟩, k⟩)] =
      ([⟨⟨x + 10, 0, 50, 50⟩, fid, k + 1⟩],
        [(fid, ⟨[], sp ++ [10], tss ++ [k + 1],
          some ⟨x + 10, 0, 50, 50⟩, k + 1⟩)]) := by
  simp only [processDetections]
  rw [assignFaceId_horiz x fid k now (k + 1) hk]
  rw [ensure_single]
  rw [mapGet_single]
  simp only [Option.getD_some]
  rw [if_pos hk]
  rw [calcSpeed_horiz x]
  simp only []
  rw [if_neg (by simp only [List.length_append, List.length_cons,
    List.length_nil, SPEED_WINDOW_SIZE]; omega)]
  rw [mapSet_single]

theorem trackerFrame_horiz (x : ℝ) (fid : FaceId) (sp : List ℝ) (tss : List ℤ)
    (k now : ℤ) (hk : ¬ k = 0) (hlen : sp.length < 5) :
    trackerFrame [⟨x + 10, 0, 50, 50⟩] now
      ⟨[(fid, ⟨[], sp, tss, some ⟨x, 0, 50, 50⟩, k⟩)],
        [⟨x, 0, 50, 50, some fid, some k⟩], k⟩ =
      (⟨[(fid, ⟨[], sp ++ [10], tss ++ [k + 1],
          some ⟨x + 10, 0, 50, 50⟩, k + 1⟩)],
        [⟨x + 10, 0, 50, 50, some fid, some (k + 1)⟩], k + 1⟩,
        [⟨⟨x + 10, 0, 50, 50⟩, fid, k + 1⟩]) := by
  unfold trackerFrame updateMovementTrackingFull
  dsimp only
  rw [processDetections_horiz x fid sp tss k now hk hlen]
  dsimp only
  rw [sweepStale_single_present _ _ _ _ (by simp)]
  simp

theorem c1_avgSpeed : getAverageSpeed c1Tracker6 c1Fid = some ⟨10, 300, 5⟩ := by
  unfold getAverageSpeed c1Tracker6
  rw [mapGet_single]
  dsimp only
  norm_num [MIN_FRAMES_FOR_SPEED, abs_of_pos]

theorem c1A6_eval : c1A6 =
    ⟨true, some ("P", false), false, false, some "P", false, 2,
      false, [], 0, false, some c1Fid,
      ⟨some soloCatalog, ["P"], true, some ("x", some 10)⟩, c1Tracker6, 0⟩ := by
  have hw50 : (0 : ℝ) < (50 : ℝ) := by norm_num
  have htf1 : trackerFrame [(⟨0, 0, 50, 50⟩ : Box)] 100 initTracker =
      (⟨[(c1Fid, ⟨[], [], [], some ⟨0, 0, 50, 50⟩, 1⟩)],
        [⟨0, 0, 50, 50, some c1Fid, some 1⟩], 1⟩,
        [⟨⟨0, 0, 50, 50⟩, c1Fid, 1⟩]) := rfl
  have hsp1 : decisionSpeedArg
      ⟨[(c1Fid, ⟨[], [], [], some ⟨0, 0, 50, 50⟩, 1⟩)],
        [⟨0, 0, 50, 50, some c1Fid, some 1⟩], 1⟩ c1Fid = none := rfl
  have hA1 : c1A1 = ⟨true, some ("P", false), false, false, some "P", false, 1,
      false, [], 0, false, some c1Fid,
      ⟨some soloCatalog, ["P"], true, some ("x", none)⟩,
      ⟨[(c1Fid, ⟨[], [], [], some ⟨0, 0, 50, 50⟩, 1⟩)],
        [⟨0, 0, 50, 50, some c1Fid, some 1⟩], 1⟩, 0⟩ := by
    unfold c1A1 c1Frame frameStep
    simp only [startedAppState]
    rw [htf1]
    dsimp only
    rw [largestFace_single _ (by show (0 : ℝ) < 50; norm_num)]
    dsimp only
    rw [hsp1]
    rw [decisionPoint_local 0 0 "x" none _ rfl rfl rfl rfl (by decide)]
    rw [selectAndPlay_solo none [] none _ rfl (Or.inl rfl)]
    simp [playPhraseAudioCore]
  have htf2 := trackerFrame_horiz 0 c1Fid [] [] 1 101 (by norm_num) (by norm_num)
  norm_num at htf2
  have hA2 : c1A2 = ⟨true, some ("P", false), false, false, some "P", false, 1,
      false, [], 0, false, some c1Fid,
      ⟨some soloCatalog, ["P"], true, some ("x", none)⟩,
      ⟨[(c1Fid, ⟨[], [10], [2], some ⟨10, 0, 50, 50⟩, 2⟩)],
        [⟨10, 0, 50, 50, some c1Fid, some 2⟩], 2⟩, 0⟩ := by
    unfold c1A2 c1Frame frameStep
    rw [hA1]
    dsimp only
    rw [htf2]
    dsimp only
    rw [largestFace_single _ (by show (0 : ℝ) < 50; norm_num)]
    dsimp only
    rw [decisionPoint_blocked 0 0 "x" _ _ (by decide)]
    simp
  have htf3 := trackerFrame_horiz 10 c1Fid [10] [2] 2 102 (by norm_num) (by norm_num)
  norm_num at htf3
  have hA3 : c1A3 = ⟨true, some ("P", false), false, false, some "P", false, 1,
      false, [], 0, false, some c1Fid,
      ⟨some soloCatalog, ["P"], true, some ("x", none)⟩,
      ⟨[(c1Fid, ⟨[], [10, 10], [2, 3], some ⟨20, 0, 50, 50⟩, 3⟩)],
        [⟨20, 0, 50, 50, some c1Fid, some 3⟩], 3⟩, 0⟩ := by
    unfold c1A3 c1Frame frameStep
    rw [hA2]
    dsimp only
    rw [htf3]
    dsimp only
    rw [largestFace_single _ (by show (0 : ℝ) < 50; norm_num)]
    dsimp only
    rw [decisionPoint_blocked 0 0 "x" _ _ (by decide)]
    simp
  have htf4 := trackerFrame_horiz 20 c1Fid [10, 10] [2, 3] 3 103 (by norm_num)
    (by norm_num)
  norm_num at htf4
  have hA4 : c1A4 = ⟨true, some ("P", false), false, false, some "P", false, 1,
      false, [], 0, false, some c1Fid,
      ⟨some soloCatalog, ["P"], true, some ("x", none)⟩,
      ⟨[(c1Fid, ⟨[], [10, 10, 10], [2, 3, 4], some ⟨30, 0, 50, 50⟩, 4⟩)],
        [⟨30, 0, 50, 50, some c1Fid, some 4⟩], 4⟩, 0⟩ := by
    unfold c1A4 c1Frame frameStep
    rw [hA3]
    dsimp only
    rw [htf4]
    dsimp only
    rw [largestFace_single _ (by show (0 : ℝ) < 50; norm_num)]
    dsimp only
    rw [decisionPoint_blocked 0 0 "x" _ _ (by decide)]
    simp
  have htf5 := trackerFrame_horiz 30 c1Fid [10, 10, 10] [2, 3, 4] 4 104
    (by norm_num) (by norm_num)
  norm_num at htf5
  have hA5 : c1A5 = ⟨true, some ("P", false), false, false, some "P", false, 1,
      false, [], 0, false, some c1Fid,
      ⟨some soloCatalog, ["P"], true, some ("x", none)⟩,
      ⟨[(c1Fid, ⟨[], [10, 10, 10, 10], [2, 3, 4, 5], some ⟨40, 0, 50, 50⟩, 5⟩)],
        [⟨40, 0, 50, 50, some c1Fid, some 5⟩], 5⟩, 0⟩ := by
    unfold c1A5 c1Frame frameStep
    rw [hA4]
    dsimp only
    rw [htf5]
    dsimp only
    rw [largestFace_single _ (by show (0 : ℝ) < 50; norm_num)]
    dsimp only
    rw [decisionPoint_blocked 0 0 "x" _ _ (by decide)]
    simp
  have htf6 := trackerFrame_horiz 40 c1Fid [10, 10, 10, 10] [2, 3, 4, 5] 5 105
    (by norm_num) (by norm_num)
  norm_num at htf6
  have hsp6 : decisionSpeedArg c1Tracker6 c1Fid = some 10 := by
    unfold decisionSpeedArg
    rw [c1_avgSpeed]
  unfold c1A6 c1Frame frameStep
  rw [hA5]
  rw [show timeoutFire (audioEnded
      (⟨true, some ("P", false), false, false, some "P", false, 1,
        false, [], 0, false, some c1Fid,
        ⟨some soloCatalog, ["P"], true, some ("x", none)⟩,
        ⟨[(c1Fid, ⟨[], [10, 10, 10, 10], [2, 3, 4, 5], some ⟨40, 0, 50, 50⟩, 5⟩)],
          [⟨40, 0, 50, 50, some c1Fid, some 5⟩], 5⟩, 0⟩ : AppState)) =
      (⟨true, none, false, false, some "P", false, 1,
        false, [], 0, false, some c1Fid,
        ⟨some soloCatalog, ["P"], true, some ("x", none)⟩,
        ⟨[(c1Fid, ⟨[], [10, 10, 10, 10], [2, 3, 4, 5], some ⟨40, 0, 50, 50⟩, 5⟩)],
          [⟨40, 0, 50, 50, some c1Fid, some 5⟩], 5⟩, 0⟩ : AppState) from rfl]
  dsimp only
  rw [htf6]
  dsimp only
  rw [largestFace_single _ (by show (0 : ℝ) < 50; norm_num)]
  dsimp only
  rw [show (⟨[(c1Fid, ⟨[], [10, 10, 10, 10, 10], [2, 3, 4, 5, 6],
      some ⟨50, 0, 50, 50⟩, 6⟩)],
      [⟨50, 0, 50, 50, some c1Fid, some 6⟩], 6⟩ : TrackerState) = c1Tracker6
    from rfl]
  rw [hsp6]
  rw [decisionPoint_local 0 0 "x" (some 10) _ rfl rfl rfl rfl (by decide)]
  rw [selectAndPlay_solo (some 10) ["P"] (some ("x", none)) _ rfl (Or.inr rfl)]
  simp [playPhraseAudioCore]

/-- C1 counterexample: in the scripted run — one face moving 10 units
right per frame, five speed samples accumulated by the sixth tick — the
decision point hands `selectPhrase` the speed `10` (the per-frame
average), not `300` (the per-second value the claim asserts), and `10`
falls in category "lo", not "med". -/
theorem speed_arg_not_per_second :
    c1A6.selector.lastArgs = some ("x", some 10) ∧
    c1A6.selector.lastArgs ≠ some ("x", some 300) ∧
    getSpeedCategory (some 10) = "lo" ∧
    getSpeedCategory (some 10) ≠ "med" := by
  rw [c1A6_eval]
  refine ⟨rfl, by simp, ?_, ?_⟩
  · rw [getSpeedCategory_some, if_pos (by norm_num)]
  · rw [getSpeedCategory_some, if_pos (by norm_num)]
    simp

/-- C1 (amended): the speed supplied to `selectPhrase` at a decision
point is the per-frame average `avgSpeed`, with no frame-rate
conversion; the per-second value `avgSpeed * 30` is computed by
`getAverageSpeed` but used only for the on-screen label.  In the
10-units-per-frame scenario the supplied value is 10 (category "lo"),
while the per-second value 300 exists alongside it. -/
theorem speed_arg_is_per_frame :
    (∀ (t : TrackerState) (fid : FaceId) (sd : SpeedData),
      getAverageSpeed t fid = some sd →
      decisionSpeedArg t fid = some sd.avgSpeed ∧
      sd.speedPerSecond = sd.avgSpeed * 30) ∧
    c1A6.selector.lastArgs = some ("x", some 10) ∧
    getSpeedCategory (some 10) = "lo" ∧
    (∃ sd, getAverageSpeed c1A6.tracker c1Fid = some sd ∧
      sd.avgSpeed = 10 ∧ sd.speedPerSecond = 300) := by
  refine ⟨?_, ?_, ?_, ?_⟩
  · intro t fid sd h
    constructor
    · unfold decisionSpeedArg
      rw [h]
    · unfold getAverageSpeed at h
      rcases hm : mapGet t.faceMovementData fid with _ | md
      · rw [hm] at h
        simp at h
      · rw [hm] at h
        dsimp only at h
        by_cases hlen : md.speeds.length < MIN_FRAMES_FOR_SPEED
        · rw [if_pos hlen] at h
          simp at h
        · rw [if_neg hlen] at h
          have := Option.some_injective _ h
          rw [← this]
  · rw [c1A6_eval]
  · rw [getSpeedCategory_some, if_pos (by norm_num)]
  · rw [c1A6_eval]
    exact ⟨⟨10, 300, 5⟩, c1_avgSpeed, rfl, rfl⟩

theorem speed_arg_is_per_frame_witness :
    decisionSpeedArg c1Tracker6 c1Fid = some 10 := by
  have h := (speed_arg_is_per_frame.1 c1Tracker6 c1Fid ⟨10, 300, 5⟩ c1_avgSpeed).1
  exact h

end Poetic
